import Mathlib

/-!
Verification development for the SpamGuard moderation engine.

This file gives a shallow embedding of the core of the `spamguard` package
(`detector.py`, `security_runtime.py`, `verification.py`, `config.py`,
`utils.py`) and proves properties of the embedded operations.

Modelling conventions:
* Python `datetime` values are modelled as `Int` seconds; `timedelta(seconds=w)`
  becomes the integer `w` and `timedelta(hours=24)` becomes `86400`.
* Python `collections.deque` per-user maps (`defaultdict(deque)`) are modelled
  as total functions `Int → List _` whose default value is `[]`; the deque's
  `popleft`-while-loop over a predicate is `List.dropWhile`.
* Python strings are Lean `String`s.  Python's `str.lower` is modelled by an
  ASCII lowering table (`pyToLower`), `str.strip()` and the regex `\s+` use the
  ASCII whitespace characters matched by Python's `\s`.
* Fallible operations (`int(raw)`) return `Option`; functions with platform
  side effects record the attempted effects in their result structure.
-/

namespace SpamGuard

/-- Whitespace characters as matched by Python's `str.strip()` and the regex
class `\s` (ASCII fragment): space, tab, newline, carriage return, vertical
tab and form feed. -/
def isSpaceChar (c : Char) : Bool :=
  c = ' ' || c = '\t' || c = '\n' || c = '\r' || c = '\x0b' || c = '\x0c'

/-- ASCII lowercase mapping table used to model Python's `str.lower`. -/
def lowerTable : List (Char × Char) :=
  [('A', 'a'), ('B', 'b'), ('C', 'c'), ('D', 'd'), ('E', 'e'), ('F', 'f'),
   ('G', 'g'), ('H', 'h'), ('I', 'i'), ('J', 'j'), ('K', 'k'), ('L', 'l'),
   ('M', 'm'), ('N', 'n'), ('O', 'o'), ('P', 'p'), ('Q', 'q'), ('R', 'r'),
   ('S', 's'), ('T', 't'), ('U', 'u'), ('V', 'v'), ('W', 'w'), ('X', 'x'),
   ('Y', 'y'), ('Z', 'z')]

/-- Model of Python's `str.lower` on a single character (ASCII fragment). -/
def pyToLower (c : Char) : Char :=
  match lowerTable.find? (fun p => p.1 = c) with
  | some p => p.2
  | none => c

/-- Model of Python's `str.lower` on a whole string. -/
def strLower (s : String) : String :=
  String.mk (s.toList.map pyToLower)

/-- Model of Python's `str.strip()`: drop whitespace from both ends. -/
def pyStripL (l : List Char) : List Char :=
  ((l.dropWhile isSpaceChar).reverse.dropWhile isSpaceChar).reverse

/-- Model of Python's `str.strip()` on a `String`. -/
def pyStrip (s : String) : String :=
  String.mk (pyStripL s.toList)

/-- Scanner for `re.sub(r"\s+", " ", s)`: `inRun` records whether the scanner
is inside a whitespace run whose single replacement space was already
emitted. -/
def collapseAux (inRun : Bool) : List Char → List Char
  | [] => []
  | c :: rest =>
    if isSpaceChar c then
      if inRun then collapseAux true rest else ' ' :: collapseAux true rest
    else c :: collapseAux false rest

/-- Replace every maximal run of whitespace by a single space, the effect of
`re.sub(r"\s+", " ", s)`. -/
def collapseWs (l : List Char) : List Char :=
  collapseAux false l

/-- Embedding of `SpamDetector._normalize`: `content.strip().lower()` followed
by `WS_RE.sub(" ", ...)`. -/
def normalize (content : String) : String :=
  String.mk (collapseWs ((pyStripL content.toList).map pyToLower))

/-- Case-insensitive literal match: `matchCI pat l` succeeds when the
lowercase image of the first `pat.length` characters of `l` is `pat`, and
returns the matched original characters together with the remainder. -/
def matchCI : List Char → List Char → Option (List Char × List Char)
  | [], l => some ([], l)
  | _ :: _, [] => none
  | p :: ps, c :: cs =>
    if pyToLower c = p then
      match matchCI ps cs with
      | some (m, r) => some (c :: m, r)
      | none => none
    else none

/-- Attempt to match the regex `https?://\S+` case-insensitively at the head
of the input, trying the scheme alternative `pat` (given in lowercase).  The
body `\S+` is the maximal nonempty run of non-whitespace characters after the
scheme. -/
def tryScheme (pat : List Char) (l : List Char) : Option (List Char × List Char) :=
  match matchCI pat l with
  | none => none
  | some (m, r) =>
    let body := r.takeWhile (fun c => !isSpaceChar c)
    if body.isEmpty then none else some (m ++ body, r.drop body.length)

/-- Match `URL_RE` at the head of the input: the regex engine first tries the
alternative that includes the optional `s`, then the one without it. -/
def matchUrlAt (l : List Char) : Option (List Char × List Char) :=
  match tryScheme ("https://".toList) l with
  | some res => some res
  | none => tryScheme ("http://".toList) l

theorem matchCI_length {pat l m r : List Char} (h : matchCI pat l = some (m, r)) :
    l.length = pat.length + r.length := by
  induction pat generalizing l m with
  | nil =>
    simp only [matchCI, Option.some.injEq, Prod.mk.injEq] at h
    simp [← h.2]
  | cons p ps ih =>
    match l with
    | [] => simp [matchCI] at h
    | c :: cs =>
      simp only [matchCI] at h
      split at h
      · match hm : matchCI ps cs with
        | some (m', r') =>
          rw [hm] at h
          simp only [Option.some.injEq, Prod.mk.injEq] at h
          have hm' : matchCI ps cs = some (m', r) := by rw [hm, h.2]
          have hlen := ih hm'
          simp only [List.length_cons, hlen]
          omega
        | none => rw [hm] at h; exact absurd h (by simp)
      · exact absurd h (by simp)

theorem tryScheme_length {pat l m r : List Char} (hp : pat ≠ [])
    (h : tryScheme pat l = some (m, r)) : r.length < l.length := by
  unfold tryScheme at h
  match hm : matchCI pat l with
  | none => rw [hm] at h; exact absurd h (by simp)
  | some (m0, r0) =>
    rw [hm] at h
    simp only at h
    split at h
    · exact absurd h (by simp)
    · rename_i hbody
      simp only [Option.some.injEq, Prod.mk.injEq] at h
      have hlen := matchCI_length hm
      have hb : (r0.takeWhile (fun c => !isSpaceChar c)).length ≠ 0 := by
        intro h0
        exact hbody (List.isEmpty_iff_length_eq_zero.mpr h0)
      have hble : (r0.takeWhile (fun c => !isSpaceChar c)).length ≤ r0.length :=
        (List.takeWhile_sublist _).length_le
      have : r.length = r0.length - (r0.takeWhile (fun c => !isSpaceChar c)).length := by
        rw [← h.2, List.length_drop]
      have hpat : 0 < pat.length := List.length_pos.mpr hp
      omega

theorem matchUrlAt_length {l m r : List Char} (h : matchUrlAt l = some (m, r)) :
    r.length < l.length := by
  unfold matchUrlAt at h
  match h1 : tryScheme ("https://".toList) l with
  | some res =>
    rw [h1] at h
    simp only [Option.some.injEq] at h
    subst h
    exact tryScheme_length (by decide) h1
  | none =>
    rw [h1] at h
    simp only at h
    exact tryScheme_length (by decide) h

/-- Embedding of `URL_RE.findall(content)` on character lists: scan left to
right, collecting non-overlapping matches of `https?://\S+`.  The `fuel`
argument makes the recursion structural; every step consumes at least one
character (`matchUrlAt_length`), so fuel equal to the input length suffices. -/
def findUrlsFuel : Nat → List Char → List (List Char)
  | 0, _ => []
  | _, [] => []
  | fuel + 1, c :: cs =>
    match matchUrlAt (c :: cs) with
    | some (m, rest) => m :: findUrlsFuel fuel rest
    | none => findUrlsFuel fuel cs

/-- Embedding of `URL_RE.findall(content)` on character lists. -/
def findUrls (l : List Char) : List (List Char) :=
  findUrlsFuel l.length l

/-- Embedding of `URL_RE.findall(snapshot.content)` on strings. -/
def findUrlsS (content : String) : List String :=
  (findUrls content.toList).map String.mk

/-- Suffix after the last `@`, the effect of `netloc.rpartition("@")[2]`. -/
def afterLastAt (l : List Char) : List Char :=
  (l.reverse.takeWhile (fun c => !(c = '@'))).reverse

/-- Hostname part of the host information: bracketed IPv6 literal if present,
otherwise everything before the first `:`. -/
def hostFromHostinfo (hi : List Char) : List Char :=
  if hi.contains '[' then ((hi.dropWhile (fun c => !(c = '['))).drop 1).takeWhile (fun c => !(c = ']'))
  else hi.takeWhile (fun c => !(c = ':'))

/-- Strip leading and trailing dots, the effect of `host.strip(".")`. -/
def stripDots (l : List Char) : List Char :=
  ((l.dropWhile (fun c => c = '.')).reverse.dropWhile (fun c => c = '.')).reverse

/-- Embedding of `SpamDetector._extract_host` for `http(s)` URLs (the only
shape produced by `URL_RE`): `urlparse(url).hostname` — the authority between
the scheme and the first `/?#`, without userinfo and port, lowercased — then
`.lower().strip(".")`, then a leading `www.` is removed. -/
def extract_host (url : String) : String :=
  let low := url.toList.map pyToLower
  let rest :=
    if ("https://".toList).isPrefixOf low then low.drop 8
    else if ("http://".toList).isPrefixOf low then low.drop 7
    else []
  let netloc := rest.takeWhile (fun c => !(c = '/' || c = '?' || c = '#'))
  let host0 := stripDots (hostFromHostinfo (afterLastAt netloc))
  let host1 := if ("www.".toList).isPrefixOf host0 then host0.drop 4 else host0
  String.mk host1

/-- Final label of a host, the effect of
`host.rsplit(".", 1)[-1] if "." in host else ""`. -/
def tldOf (host : String) : String :=
  if host.toList.contains '.' then
    String.mk ((host.toList.reverse.takeWhile (fun c => !(c = '.'))).reverse)
  else ""

/-- Embedding of the `SpamGuardConfig` dataclass (typed view). -/
structure SpamGuardConfig where
  window_sec : Int
  max_msg_in_window : Int
  duplicate_window_sec : Int
  dup_threshold : Int
  url_threshold : Int
  url_repeat_window_sec : Int
  url_repeat_threshold : Int
  mention_threshold : Int
  score_threshold : Int
  timeout_minutes : Int
  warning_threshold : Int
  timeout_threshold : Int
  ban_threshold : Int
  offense_window_sec : Int
  ban_enabled : Bool
  phishing_domains : List String
  suspicious_tlds : List String
  allow_domains : List String
  raid_join_window_sec : Int
  raid_join_threshold : Int
  raid_message_window_sec : Int
  raid_new_user_message_threshold : Int
  new_member_window_sec : Int
  verify_enabled : Bool
  verify_channel_id : Option Int
  verify_unverified_role_id : Option Int
  verify_member_role_id : Option Int
  verify_timeout_minutes : Int
  verify_max_attempts : Int
  verify_fail_action : String
  log_channel_id : Option Int
  log_viewer_role_id : Option Int
  ignore_role_ids : List Int
  ignore_channel_ids : List Int
  whitelist_user_ids : List Int
  whitelist_role_ids : List Int

/-- The dataclass defaults of `SpamGuardConfig()`. -/
def defaultConfig : SpamGuardConfig :=
  { window_sec := 12
    max_msg_in_window := 5
    duplicate_window_sec := 120
    dup_threshold := 3
    url_threshold := 2
    url_repeat_window_sec := 120
    url_repeat_threshold := 3
    mention_threshold := 4
    score_threshold := 6
    timeout_minutes := 10
    warning_threshold := 1
    timeout_threshold := 2
    ban_threshold := 4
    offense_window_sec := 86400
    ban_enabled := false
    phishing_domains := []
    suspicious_tlds := ["zip", "mov", "top", "click", "xyz", "gq", "tk"]
    allow_domains := []
    raid_join_window_sec := 20
    raid_join_threshold := 6
    raid_message_window_sec := 20
    raid_new_user_message_threshold := 8
    new_member_window_sec := 1800
    verify_enabled := true
    verify_channel_id := none
    verify_unverified_role_id := none
    verify_member_role_id := none
    verify_timeout_minutes := 10
    verify_max_attempts := 3
    verify_fail_action := "kick"
    log_channel_id := none
    log_viewer_role_id := none
    ignore_role_ids := []
    ignore_channel_ids := []
    whitelist_user_ids := []
    whitelist_role_ids := [] }

/-- Embedding of `MessageSnapshot`. -/
structure MessageSnapshot where
  user_id : Int
  content : String
  mention_count : Int
  created_at : Int
  account_created_at : Int
  joined_at : Option Int

/-- Embedding of `ScoringResult`. -/
structure ScoringResult where
  score : Int
  reasons : List String
deriving DecidableEq

/-- Embedding of `EnforcementDecision`; `offense_count` is a list length. -/
structure EnforcementDecision where
  offense_count : Nat
  action : String
deriving DecidableEq

/-- The mutable state of a `SpamDetector` instance.  Python's
`defaultdict(deque)` maps are total functions with default `[]`. -/
structure DetectorState where
  user_messages : Int → List Int
  user_duplicates : Int → List (Int × String)
  user_urls : Int → List (Int × String)
  user_offenses : Int → List Int
  recent_joins : List (Int × Int)
  recent_new_user_messages : List Int

/-- The state of a freshly constructed `SpamDetector`. -/
def emptyDetector : DetectorState :=
  { user_messages := fun _ => []
    user_duplicates := fun _ => []
    user_urls := fun _ => []
    user_offenses := fun _ => []
    recent_joins := []
    recent_new_user_messages := [] }

/-- Pointwise update of a per-user map. -/
def updAt {α : Type} (f : Int → α) (k : Int) (v : α) : Int → α :=
  fun k' => if k' = k then v else f k'

/-- Embedding of `SpamDetector._prune`: pop from the front of the user's
three histories while the front timestamp is before the respective cutoff. -/
def pruneUser (cfg : SpamGuardConfig) (st : DetectorState) (uid now : Int) : DetectorState :=
  { st with
    user_messages := updAt st.user_messages uid
      ((st.user_messages uid).dropWhile (fun t => decide (t < now - cfg.window_sec)))
    user_duplicates := updAt st.user_duplicates uid
      ((st.user_duplicates uid).dropWhile (fun e => decide (e.1 < now - cfg.duplicate_window_sec)))
    user_urls := updAt st.user_urls uid
      ((st.user_urls uid).dropWhile (fun e => decide (e.1 < now - cfg.url_repeat_window_sec))) }

/-- Embedding of `SpamDetector._prune_joins`. -/
def pruneJoins (cfg : SpamGuardConfig) (st : DetectorState) (now : Int) : DetectorState :=
  { st with
    recent_joins :=
      st.recent_joins.dropWhile (fun e => decide (e.1 < now - cfg.raid_join_window_sec)) }

/-- Embedding of `SpamDetector._prune_new_user_messages`. -/
def pruneNewUserMessages (cfg : SpamGuardConfig) (st : DetectorState) (now : Int) : DetectorState :=
  { st with
    recent_new_user_messages :=
      st.recent_new_user_messages.dropWhile (fun t => decide (t < now - cfg.raid_message_window_sec)) }

/-- Embedding of `SpamDetector.register_join`: append, then prune. -/
def register_join (cfg : SpamGuardConfig) (st : DetectorState) (user_id joined_at : Int) :
    DetectorState :=
  pruneJoins cfg { st with recent_joins := st.recent_joins ++ [(joined_at, user_id)] } joined_at

/-- Embedding of `SpamDetector._is_recent_join`. -/
def is_recent_join (cfg : SpamGuardConfig) (s : MessageSnapshot) (now : Int) : Bool :=
  match s.joined_at with
  | none => false
  | some j => decide (now - j ≤ cfg.new_member_window_sec)

/-- Embedding of `SpamDetector._is_raid_active`: prune both tenant-level
sequences (a state mutation), then test the join count. -/
def is_raid_active (cfg : SpamGuardConfig) (st : DetectorState) (now : Int) :
    Bool × DetectorState :=
  let st1 := pruneJoins cfg st now
  let st2 := pruneNewUserMessages cfg st1 now
  (decide ((st2.recent_joins.length : Int) ≥ cfg.raid_join_threshold), st2)

/-- Embedding of `SpamDetector._dedupe` (the inner loop with a `seen` set). -/
def dedupeAux (seen : List String) : List String → List String
  | [] => []
  | r :: rest => if r ∈ seen then dedupeAux seen rest else r :: dedupeAux (r :: seen) rest

/-- Embedding of `SpamDetector._dedupe`: keep first occurrences. -/
def dedupe (reasons : List String) : List String :=
  dedupeAux [] reasons

/-- Embedding of `SpamDetector._score_url_risk`'s loop over `urls`, with the
canonicalized configuration sets. -/
def riskLoop (blocked allowed tlds : List String) : List String → Int × List String
  | [] => (0, [])
  | url :: rest =>
    let tail := riskLoop blocked allowed tlds rest
    let host := extract_host url
    if host = "" then tail
    else if host ∈ allowed then tail
    else if host ∈ blocked then (8 + tail.1, "phishing_domain" :: tail.2)
    else if tldOf host ∈ tlds then (4 + tail.1, "suspicious_domain_tld" :: tail.2)
    else tail

/-- Embedding of `SpamDetector._score_url_risk`: lowercase the configured
domain sets (`lstrip(".")` on TLDs) and fold the per-URL classification. -/
def score_url_risk (cfg : SpamGuardConfig) (urls : List String) : Int × List String :=
  let blocked := cfg.phishing_domains.map strLower
  let allowed := cfg.allow_domains.map strLower
  let tlds := cfg.suspicious_tlds.map
    (fun t => String.mk ((strLower t).toList.dropWhile (fun c => c = '.')))
  riskLoop blocked allowed tlds urls

/-- The lower-cased URLs `URL_RE` extracts from the message
(`[url.lower() for url in URL_RE.findall(snapshot.content)]`). -/
def urlsOf (s : MessageSnapshot) : List String :=
  (findUrlsS s.content).map strLower

/-- The user's message-timestamp history after `_prune` and the
`msg_history.append(now)` of `score`. -/
def msgHistoryOf (cfg : SpamGuardConfig) (st : DetectorState) (s : MessageSnapshot) :
    List Int :=
  (st.user_messages s.user_id).dropWhile
    (fun t => decide (t < s.created_at - cfg.window_sec)) ++ [s.created_at]

/-- The user's duplicate history after `_prune` and the
`dup_history.append((now, normalized))` of `score`. -/
def dupHistoryOf (cfg : SpamGuardConfig) (st : DetectorState) (s : MessageSnapshot) :
    List (Int × String) :=
  (st.user_duplicates s.user_id).dropWhile
    (fun e => decide (e.1 < s.created_at - cfg.duplicate_window_sec))
    ++ [(s.created_at, normalize s.content)]

/-- The user's URL history after `_prune` and the per-URL appends of `score`. -/
def urlHistoryOf (cfg : SpamGuardConfig) (st : DetectorState) (s : MessageSnapshot) :
    List (Int × String) :=
  (st.user_urls s.user_id).dropWhile
    (fun e => decide (e.1 < s.created_at - cfg.url_repeat_window_sec))
    ++ (urlsOf s).map (fun u => (s.created_at, u))

/-- Rapid-posting trigger: `len(msg_history) >= max_msg_in_window`. -/
def rapidFlag (cfg : SpamGuardConfig) (st : DetectorState) (s : MessageSnapshot) : Bool :=
  decide (((msgHistoryOf cfg st s).length : Int) ≥ cfg.max_msg_in_window)

/-- Duplicate trigger: `normalized` truthy and the count of equal non-empty
entries reaching `dup_threshold`. -/
def dupFlag (cfg : SpamGuardConfig) (st : DetectorState) (s : MessageSnapshot) : Bool :=
  decide (normalize s.content ≠ "" ∧
    (((dupHistoryOf cfg st s).countP
      (fun e => decide (e.2 ≠ "" ∧ e.2 = normalize s.content)) : Int) ≥ cfg.dup_threshold))

/-- URL-count trigger: `len(urls) >= url_threshold`. -/
def urlSpamFlag (cfg : SpamGuardConfig) (s : MessageSnapshot) : Bool :=
  decide (((urlsOf s).length : Int) ≥ cfg.url_threshold)

/-- URL-repeat trigger: some distinct URL of this message occurs at least
`url_repeat_threshold` times in the (pruned and appended) URL history. -/
def urlRepeatFlag (cfg : SpamGuardConfig) (st : DetectorState) (s : MessageSnapshot) : Bool :=
  !(urlsOf s).isEmpty && (urlsOf s).any (fun u =>
    decide ((((urlHistoryOf cfg st s).countP (fun e => decide (e.2 = u))) : Int) ≥
      cfg.url_repeat_threshold))

/-- The URL-reputation score, contributed only when `urls` is non-empty. -/
def riskScoreOf (cfg : SpamGuardConfig) (s : MessageSnapshot) : Int :=
  if (urlsOf s).isEmpty then 0 else (score_url_risk cfg (urlsOf s)).1

/-- The URL-reputation reasons, contributed only when `urls` is non-empty. -/
def riskReasonsOf (cfg : SpamGuardConfig) (s : MessageSnapshot) : List String :=
  if (urlsOf s).isEmpty then [] else (score_url_risk cfg (urlsOf s)).2

/-- Mention-spam trigger: `mention_count >= mention_threshold`. -/
def mentionFlag (cfg : SpamGuardConfig) (s : MessageSnapshot) : Bool :=
  decide (s.mention_count ≥ cfg.mention_threshold)

/-- New-account trigger: account age under 24 hours. -/
def newAccountFlag (s : MessageSnapshot) : Bool :=
  decide (s.created_at - s.account_created_at < 86400)

/-- Embedding of the part of `SpamDetector.score` before the raid overlay:
pruning, the three history appends, and the rapid-posting, duplicate, URL
count, URL repeat, URL reputation, mention and account-age signals, in source
order.  Returns the accumulated score, the reason list, and the state. -/
def scorePre (cfg : SpamGuardConfig) (st : DetectorState) (s : MessageSnapshot) :
    Int × List String × DetectorState :=
  let st1 := pruneUser cfg st s.user_id s.created_at
  let st3 := { st1 with
    user_messages := updAt st1.user_messages s.user_id (msgHistoryOf cfg st s)
    user_duplicates := updAt st1.user_duplicates s.user_id (dupHistoryOf cfg st s)
    user_urls := updAt st1.user_urls s.user_id (urlHistoryOf cfg st s) }
  let score : Int :=
    (if rapidFlag cfg st s then 2 else 0) + (if dupFlag cfg st s then 3 else 0) +
      (if urlSpamFlag cfg s then 3 else 0) + (if urlRepeatFlag cfg st s then 3 else 0) +
      riskScoreOf cfg s + (if mentionFlag cfg s then 3 else 0) +
      (if newAccountFlag s then 1 else 0)
  let reasons : List String :=
    (if rapidFlag cfg st s then ["rapid_posting"] else []) ++
      (if dupFlag cfg st s then ["duplicate_messages"] else []) ++
      (if urlSpamFlag cfg s then ["url_spam"] else []) ++
      (if urlRepeatFlag cfg st s then ["repeated_url_posts"] else []) ++
      riskReasonsOf cfg s ++ (if mentionFlag cfg s then ["mention_spam"] else []) ++
      (if newAccountFlag s then ["new_account"] else [])
  (score, reasons, st3)

/-- The state after the raid overlay's conditional
`recent_new_user_messages.append(now)` for recent joiners. -/
def newUserAppended (cfg : SpamGuardConfig) (st : DetectorState) (s : MessageSnapshot) :
    DetectorState :=
  if is_recent_join cfg s s.created_at then
    { (scorePre cfg st s).2.2 with
      recent_new_user_messages :=
        (scorePre cfg st s).2.2.recent_new_user_messages ++ [s.created_at] }
  else (scorePre cfg st s).2.2

/-- The `_is_raid_active` test made inside `score`. -/
def raidActiveOf (cfg : SpamGuardConfig) (st : DetectorState) (s : MessageSnapshot) : Bool :=
  (is_raid_active cfg (newUserAppended cfg st s) s.created_at).1

/-- The detector state after the raid overlay's pruning. -/
def raidFinalState (cfg : SpamGuardConfig) (st : DetectorState) (s : MessageSnapshot) :
    DetectorState :=
  (is_raid_active cfg (newUserAppended cfg st s) s.created_at).2

/-- The nested `raid_activity` test: raid active and the pruned new-member
message count reaching `raid_new_user_message_threshold`. -/
def raidActivityOf (cfg : SpamGuardConfig) (st : DetectorState) (s : MessageSnapshot) : Bool :=
  raidActiveOf cfg st s &&
    decide (((raidFinalState cfg st s).recent_new_user_messages.length : Int) ≥
      cfg.raid_new_user_message_threshold)

/-- Embedding of `SpamDetector.score`: the pre-raid signals, then the raid
overlay (append to `recent_new_user_messages` for recent joiners, prune both
tenant sequences inside `_is_raid_active`, test), then reason deduplication. -/
def score (cfg : SpamGuardConfig) (st : DetectorState) (s : MessageSnapshot) :
    ScoringResult × DetectorState :=
  ({ score := (scorePre cfg st s).1 +
        (if raidActiveOf cfg st s then (if raidActivityOf cfg st s then 7 else 2) else 0)
     reasons := dedupe ((scorePre cfg st s).2.1 ++
        (if raidActiveOf cfg st s then
          (if raidActivityOf cfg st s then ["raid_join_surge", "raid_activity"]
           else ["raid_join_surge"])
         else [])) },
    raidFinalState cfg st s)

/-- Embedding of `SpamDetector.decide_enforcement`: prune the user's offense
ledger, append `now`, and decide the action by the source's if/elif chain. -/
def decide_enforcement (cfg : SpamGuardConfig) (st : DetectorState) (user_id now : Int) :
    EnforcementDecision × DetectorState :=
  let history :=
    (st.user_offenses user_id).dropWhile (fun t => decide (t < now - cfg.offense_window_sec))
      ++ [now]
  let count := history.length
  let action :=
    if cfg.ban_enabled ∧ (count : Int) ≥ cfg.ban_threshold then "ban"
    else if (count : Int) ≥ cfg.timeout_threshold then "timeout"
    else if (count : Int) < cfg.warning_threshold then "none"
    else "warn"
  ({ offense_count := count, action := action },
    { st with user_offenses := updAt st.user_offenses user_id history })

/-- The data of an incoming platform message used by `SecurityRuntime`. -/
structure MessageModel where
  guild_id : Int
  channel_id : Int
  author_id : Int
  author_role_ids : List Int
  content : String
  mention_count : Int
  account_created_at : Int
  joined_at : Option Int

/-- Embedding of `SecurityRuntime.is_exempt`. -/
def is_exempt (m : MessageModel) (cfg : SpamGuardConfig) : Bool :=
  if m.channel_id ∈ cfg.ignore_channel_ids then true
  else if m.author_id ∈ cfg.whitelist_user_ids then true
  else if m.author_role_ids.any (fun r => r ∈ cfg.ignore_role_ids) then true
  else if m.author_role_ids.any (fun r => r ∈ cfg.whitelist_role_ids) then true
  else false

/-- Embedding of `ModerationOutcome`; the random `event_id` string is
abstracted to its presence. -/
structure ModerationOutcome where
  enforced : Bool
  event_id : Option Unit
deriving DecidableEq

/-- Result of `SecurityRuntime.handle_message`, with the platform effects it
attempted recorded alongside the returned outcome and the detector state. -/
structure HandleResult where
  outcome : ModerationOutcome
  detector : DetectorState
  decision : Option EnforcementDecision
  delete_attempted : Bool
  action_invoked : Option String
  sec_event_emitted : Bool

/-- Embedding of `SecurityRuntime.handle_message` for a non-sharded tenant:
exemption check, scoring, the enforcement gate over
`score >= score_threshold` and the forced reasons
`{phishing_domain, raid_activity}`, then deletion, action and event logging
on the enforcement path. -/
def handle_message (cfg : SpamGuardConfig) (st : DetectorState) (m : MessageModel) (now : Int) :
    HandleResult :=
  if is_exempt m cfg then
    { outcome := { enforced := false, event_id := none }, detector := st, decision := none
      delete_attempted := false, action_invoked := none, sec_event_emitted := false }
  else
    let snapshot : MessageSnapshot :=
      { user_id := m.author_id, content := m.content, mention_count := m.mention_count
        created_at := now, account_created_at := m.account_created_at, joined_at := m.joined_at }
    let res := score cfg st snapshot
    let should_enforce :=
      decide (res.1.score ≥ cfg.score_threshold) ||
        res.1.reasons.any (fun r => r = "phishing_domain" || r = "raid_activity")
    if should_enforce then
      let dec := decide_enforcement cfg res.2 m.author_id now
      { outcome := { enforced := true, event_id := some () }, detector := dec.2
        decision := some dec.1, delete_attempted := true, action_invoked := some dec.1.action
        sec_event_emitted := true }
    else
      { outcome := { enforced := false, event_id := none }, detector := res.2, decision := none
        delete_attempted := false, action_invoked := none, sec_event_emitted := false }

/-- Embedding of `VerificationSession`. -/
structure VerificationSession where
  guild_id : Int
  user_id : Int
  code : String
  expires_at : Int
  attempts : Int
deriving DecidableEq

/-- Session table keyed by `(guild_id, user_id)`, a model of the Python dict. -/
def SessionTable : Type := List ((Int × Int) × VerificationSession)

/-- Dict lookup `self.sessions.get(key)`. -/
def lookupSession (tbl : SessionTable) (k : Int × Int) : Option VerificationSession :=
  (tbl.find? (fun e => decide (e.1 = k))).map (fun e => e.2)

/-- Dict removal `self.sessions.pop(key, None)`. -/
def removeSession (tbl : SessionTable) (k : Int × Int) : SessionTable :=
  tbl.filter (fun e => decide (¬ e.1 = k))

/-- In-place mutation of the session stored under `k` (the Python object held
by the dict is mutated through the reference). -/
def setSession (tbl : SessionTable) (k : Int × Int) (v : VerificationSession) : SessionTable :=
  tbl.map (fun e => if e.1 = k then (k, v) else e)

/-- The user-facing messages returned by `VerificationManager.verify_code`,
abstracted from their localized strings. -/
inductive VerifyMessage where
  | adminExempt
  | disabled
  | noSession
  | expired
  | exhausted
  | remaining (n : Int)
  | success
deriving DecidableEq

/-- Result of `VerificationManager.verify_code`: the returned pair, the
session table afterwards, and whether `apply_failure_action` was invoked. -/
structure VerifyResult where
  ok : Bool
  msg : VerifyMessage
  sessions : SessionTable
  fail_action_applied : Bool

/-- Embedding of `VerificationManager.verify_code`: administrator bypass,
disabled bypass, missing session, expiry, the bounded-retry mismatch branch
(`attempts += 1` against `max(1, verify_max_attempts)`, exhaustion applies the
failure action and clears the session), and the success branch. -/
def verify_code (cfg : SpamGuardConfig) (tbl : SessionTable) (isAdmin : Bool)
    (guild_id user_id : Int) (codeInput : String) (now : Int) : VerifyResult :=
  if isAdmin then
    { ok := true, msg := .adminExempt, sessions := tbl, fail_action_applied := false }
  else
    let key := (guild_id, user_id)
    if !cfg.verify_enabled then
      { ok := true, msg := .disabled, sessions := tbl, fail_action_applied := false }
    else
      match lookupSession tbl key with
      | none => { ok := false, msg := .noSession, sessions := tbl, fail_action_applied := false }
      | some session =>
        if now > session.expires_at then
          { ok := false, msg := .expired, sessions := removeSession tbl key
            fail_action_applied := false }
        else if session.code ≠ pyStrip codeInput then
          let attempts := session.attempts + 1
          let max_attempts := max 1 cfg.verify_max_attempts
          let remaining := max_attempts - attempts
          if remaining ≤ 0 then
            { ok := false, msg := .exhausted, sessions := removeSession tbl key
              fail_action_applied := true }
          else
            { ok := false, msg := .remaining remaining
              sessions := setSession tbl key { session with attempts := attempts }
              fail_action_applied := false }
        else
          { ok := true, msg := .success, sessions := removeSession tbl key
            fail_action_applied := false }

/-- Python attribute values that occur in `SpamGuardConfig` fields and in the
admin `set` path (`utils.parse_value`). -/
inductive PyVal where
  | vBool (b : Bool)
  | vInt (n : Int)
  | vNone
  | vStr (s : String)
  | vIntList (l : List Int)
  | vStrList (l : List String)
deriving DecidableEq

/-- Validity of the digit part of a Python decimal `int` literal: nonempty,
digits with single underscores strictly between digits. -/
def pyIntDigitsOk (l : List Char) : Bool :=
  (match l.head? with | some c => c.isDigit | none => false)
    && (match l.getLast? with | some c => c.isDigit | none => false)
    && l.all (fun c => c.isDigit || c = '_')
    && (l.zip l.tail).all (fun p => !(p.1 = '_' && p.2 = '_'))

/-- Numeric value of a digit list with underscores removed. -/
def pyDigitsVal (l : List Char) : Nat :=
  (l.filter Char.isDigit).foldl (fun acc c => 10 * acc + (c.toNat - 48)) 0

/-- Embedding of Python's `int(raw)` for decimal strings: surrounding
whitespace is stripped, an optional sign precedes the digits; a `ValueError`
is `none`. -/
def pyParseInt (raw : String) : Option Int :=
  let l := pyStripL raw.toList
  match l with
  | '+' :: rest => if pyIntDigitsOk rest then some (pyDigitsVal rest : Int) else none
  | '-' :: rest => if pyIntDigitsOk rest then some (-(pyDigitsVal rest : Int)) else none
  | _ => if pyIntDigitsOk l then some (pyDigitsVal l : Int) else none

/-- Embedding of `utils.parse_value`: dispatch on the runtime type of the
current value (`bool` before `int`, then `None`, then passthrough). -/
def parse_value (current : PyVal) (raw : String) : Option PyVal :=
  match current with
  | .vBool _ => some (.vBool (decide (strLower raw ∈ ["1", "true", "yes", "on"])))
  | .vInt _ => (pyParseInt raw).map PyVal.vInt
  | .vNone =>
    if strLower raw ∈ ["none", "null"] then some .vNone
    else (pyParseInt raw).map PyVal.vInt
  | _ => some (.vStr raw)

/-- A guild configuration document seen as the Python object's attribute map:
one entry per dataclass field, in declaration order. -/
def RawConfig : Type := List (String × PyVal)

/-- The attribute map of `SpamGuardConfig()` (dataclass defaults). -/
def defaultRawConfig : RawConfig :=
  [("window_sec", .vInt 12), ("max_msg_in_window", .vInt 5),
   ("duplicate_window_sec", .vInt 120), ("dup_threshold", .vInt 3),
   ("url_threshold", .vInt 2), ("url_repeat_window_sec", .vInt 120),
   ("url_repeat_threshold", .vInt 3), ("mention_threshold", .vInt 4),
   ("score_threshold", .vInt 6), ("timeout_minutes", .vInt 10),
   ("warning_threshold", .vInt 1), ("timeout_threshold", .vInt 2),
   ("ban_threshold", .vInt 4), ("offense_window_sec", .vInt 86400),
   ("ban_enabled", .vBool false), ("phishing_domains", .vStrList []),
   ("suspicious_tlds", .vStrList ["zip", "mov", "top", "click", "xyz", "gq", "tk"]),
   ("allow_domains", .vStrList []), ("raid_join_window_sec", .vInt 20),
   ("raid_join_threshold", .vInt 6), ("raid_message_window_sec", .vInt 20),
   ("raid_new_user_message_threshold", .vInt 8), ("new_member_window_sec", .vInt 1800),
   ("verify_enabled", .vBool true), ("verify_channel_id", .vNone),
   ("verify_unverified_role_id", .vNone), ("verify_member_role_id", .vNone),
   ("verify_timeout_minutes", .vInt 10), ("verify_max_attempts", .vInt 3),
   ("verify_fail_action", .vStr "kick"), ("log_channel_id", .vNone),
   ("log_viewer_role_id", .vNone), ("ignore_role_ids", .vIntList []),
   ("ignore_channel_ids", .vIntList []), ("whitelist_user_ids", .vIntList []),
   ("whitelist_role_ids", .vIntList [])]

/-- Python's `hasattr(cfg, key)` for a dataclass instance. -/
def hasField (cfg : RawConfig) (key : String) : Bool :=
  cfg.any (fun e => decide (e.1 = key))

/-- Python's `setattr(cfg, key, value)` for an existing attribute. -/
def setField (cfg : RawConfig) (key : String) (v : PyVal) : RawConfig :=
  cfg.map (fun e => if e.1 = key then (key, v) else e)

/-- State of a `ConfigStore`: in-memory defaults and per-guild documents, and
a counter of `save()` persistence writes. -/
structure ConfigStoreState where
  default_config : RawConfig
  guild_configs : List (Int × RawConfig)
  save_count : Nat

/-- Embedding of `ConfigStore.get_guild_config`: lazily deep-copy the default
document into the guild map (persisting) on first reference. -/
def get_guild_config (st : ConfigStoreState) (guild_id : Int) : RawConfig × ConfigStoreState :=
  match st.guild_configs.find? (fun e => decide (e.1 = guild_id)) with
  | some e => (e.2, st)
  | none =>
    let cfg := st.default_config
    (cfg,
      { st with
        guild_configs := st.guild_configs ++ [(guild_id, cfg)]
        save_count := st.save_count + 1 })

/-- Embedding of `ConfigStore.set_guild_value`: fetch (possibly creating) the
guild document, reject unknown attributes, otherwise set and persist. -/
def set_guild_value (st : ConfigStoreState) (guild_id : Int) (key : String) (v : PyVal) :
    Bool × ConfigStoreState :=
  let fetched := get_guild_config st guild_id
  if hasField fetched.1 key then
    let st1 := fetched.2
    (true,
      { st1 with
        guild_configs :=
          st1.guild_configs.map (fun e => if e.1 = guild_id then (guild_id, setField e.2 key v) else e)
        save_count := st1.save_count + 1 })
  else (false, fetched.2)

/-- Modelled from the spec: the `canonicalHost+path` entry shape the spec
ascribes to `urlPosts` (§3): hostname from URL parsing, lower-cased, trailing
dots stripped, leading `www.` stripped, concatenated with the URL's path. -/
def specCanonicalHostPath (url : String) : String :=
  let low := url.toList.map pyToLower
  let rest :=
    if ("https://".toList).isPrefixOf low then low.drop 8
    else if ("http://".toList).isPrefixOf low then low.drop 7
    else []
  let netloc := rest.takeWhile (fun c => !(c = '/' || c = '?' || c = '#'))
  let path := (rest.drop netloc.length).takeWhile (fun c => !(c = '?' || c = '#'))
  let host0 := (hostFromHostinfo (afterLastAt netloc)).reverse.dropWhile (fun c => c = '.')
  let host1 :=
    if ("www.".toList).isPrefixOf host0.reverse then host0.reverse.drop 4 else host0.reverse
  String.mk (host1 ++ path)

theorem updAt_same {α : Type} (f : Int → α) (k : Int) (v : α) : updAt f k v k = v := by
  simp [updAt]

theorem updAt_apply {α : Type} (f : Int → α) (k : Int) (v : α) (k' : Int) :
    updAt f k v k' = if k' = k then v else f k' := rfl

theorem mem_dedupeAux {x : String} {seen l : List String} :
    x ∈ dedupeAux seen l ↔ x ∈ l ∧ x ∉ seen := by
  induction l generalizing seen with
  | nil => simp [dedupeAux]
  | cons r rest ih =>
    simp only [dedupeAux]
    split
    · rename_i hr
      rw [ih]
      constructor
      · rintro ⟨h1, h2⟩
        exact ⟨List.mem_cons_of_mem r h1, h2⟩
      · rintro ⟨h1, h2⟩
        rcases List.mem_cons.mp h1 with h | h
        · exact absurd (by rwa [h]) h2
        · exact ⟨h, h2⟩
    · rename_i hr
      simp only [List.mem_cons, ih, List.mem_cons]
      constructor
      · rintro (h | ⟨h1, h2⟩)
        · exact ⟨Or.inl h, by rwa [h]⟩
        · exact ⟨Or.inr h1, fun hx => h2 (Or.inr hx)⟩
      · rintro ⟨h1 | h1, h2⟩
        · exact Or.inl h1
        · by_cases hx : x = r
          · exact Or.inl hx
          · exact Or.inr ⟨h1, fun hs => hs.elim hx h2⟩

theorem mem_dedupe {x : String} {l : List String} : x ∈ dedupe l ↔ x ∈ l := by
  simp [dedupe, mem_dedupeAux]

/-- The escalation scenario's configuration from the spec (§8, scenario 7). -/
def escalationCfg : SpamGuardConfig :=
  { defaultConfig with
    warning_threshold := 1
    timeout_threshold := 2
    ban_threshold := 3
    ban_enabled := true
    offense_window_sec := 3600 }

/-- First, second and third `decide_enforcement` calls of the escalation
scenario, one minute apart. -/
def escalation1 : EnforcementDecision × DetectorState :=
  decide_enforcement escalationCfg emptyDetector 10 0

def escalation2 : EnforcementDecision × DetectorState :=
  decide_enforcement escalationCfg escalation1.2 10 60

def escalation3 : EnforcementDecision × DetectorState :=
  decide_enforcement escalationCfg escalation2.2 10 120

/-- C2: `decide_enforcement` prunes timestamps before `now − offenseWindowSec`
from the front of the user's offense ledger, appends `now`, takes `count` to
be the resulting length, and picks the action by strict priority
`ban` (when enabled) > `timeout` > `warn` > `none`; with thresholds 1/2/3 and
bans enabled, three successive calls within the window escalate
`warn`, `timeout`, `ban`. -/
theorem claim_C2 :
    (∀ (cfg : SpamGuardConfig) (st : DetectorState) (uid now : Int),
      (decide_enforcement cfg st uid now).2.user_offenses uid =
        (st.user_offenses uid).dropWhile (fun t => decide (t < now - cfg.offense_window_sec))
          ++ [now] ∧
      (decide_enforcement cfg st uid now).1.offense_count =
        ((st.user_offenses uid).dropWhile
          (fun t => decide (t < now - cfg.offense_window_sec))).length + 1 ∧
      (decide_enforcement cfg st uid now).1.action =
        (if cfg.ban_enabled ∧
            (((decide_enforcement cfg st uid now).1.offense_count : Int) ≥ cfg.ban_threshold)
          then "ban"
          else if ((decide_enforcement cfg st uid now).1.offense_count : Int) ≥
              cfg.timeout_threshold then "timeout"
          else if ((decide_enforcement cfg st uid now).1.offense_count : Int) ≥
              cfg.warning_threshold then "warn"
          else "none")) ∧
    escalation1.1.action = "warn" ∧ escalation2.1.action = "timeout" ∧
      escalation3.1.action = "ban" := by
  refine ⟨fun cfg st uid now => ?_, by decide, by decide, by decide⟩
  refine ⟨by simp [decide_enforcement, updAt_same], by simp [decide_enforcement], ?_⟩
  have hcount : (decide_enforcement cfg st uid now).1.offense_count =
      ((st.user_offenses uid).dropWhile
        (fun t => decide (t < now - cfg.offense_window_sec))).length + 1 := by
    simp [decide_enforcement]
  rw [hcount]
  show (decide_enforcement cfg st uid now).1.action = _
  simp only [decide_enforcement, List.length_append, List.length_singleton]
  split_ifs <;> first | rfl | omega

/-- C7 as stated is false: value coercion dispatches on the *current* value's
runtime type, so when a nullable-integer field currently holds an integer
(`log_channel_id = 5`), the raw strings `none` and `null` go down the integer
branch and fail to parse instead of yielding null. -/
theorem claim_C7_counterexample :
    parse_value (.vInt 5) "none" = none ∧ parse_value (.vInt 5) "null" = none ∧
      parse_value .vNone "none" = some .vNone := by
  refine ⟨?_, ?_, ?_⟩ <;> decide

/-- C7 (amended): for a field whose *current value* is null, `none`/`null`
(case-insensitively) coerce to null and any other raw string is parsed as a
decimal integer; for a field currently holding an integer, the raw string is
always parsed as a decimal integer (so `none`/`null` fail); integer parse
failure is the only failure signal of value coercion. -/
theorem claim_C7 :
    (∀ raw : String, strLower raw ∈ ["none", "null"] →
      parse_value .vNone raw = some .vNone) ∧
    (∀ raw : String, strLower raw ∉ ["none", "null"] →
      parse_value .vNone raw = (pyParseInt raw).map PyVal.vInt) ∧
    (∀ (raw : String) (n : Int),
      parse_value (.vInt n) raw = (pyParseInt raw).map PyVal.vInt) ∧
    (∀ (current : PyVal) (raw : String),
      parse_value current raw = none ↔
        (pyParseInt raw = none ∧
          ((∃ n, current = .vInt n) ∨
            (current = .vNone ∧ strLower raw ∉ ["none", "null"])))) := by
  refine ⟨fun raw h => by simp [parse_value, h], fun raw h => by simp [parse_value, h],
    fun raw n => by simp [parse_value], fun current raw => ?_⟩
  cases current with
  | vBool b => simp [parse_value]
  | vInt n => simp [parse_value, Option.map_eq_none']
  | vNone =>
    by_cases h : strLower raw ∈ ["none", "null"] <;>
      simp [parse_value, h, Option.map_eq_none']
  | vStr s => simp [parse_value]
  | vIntList l => simp [parse_value]
  | vStrList l => simp [parse_value]

/-- Witness for C7's amended theorem at concrete inputs. -/
theorem claim_C7_witness :
    strLower "None" ∈ ["none", "null"] ∧ parse_value .vNone "None" = some .vNone :=
  ⟨by decide, claim_C7.1 "None" (by decide)⟩

/-- A URL whose canonicalized host is non-empty, not allow-listed, and in the
block list: such a URL contributes 8 and one `phishing_domain` tag. -/
def urlBlocked (blocked allowed : List String) (url : String) : Bool :=
  !decide (extract_host url = "") && !decide (extract_host url ∈ allowed) &&
    decide (extract_host url ∈ blocked)

/-- A URL whose canonicalized host is non-empty, in neither list, and whose
final label is a suspicious TLD: contributes 4 and one
`suspicious_domain_tld` tag. -/
def urlSuspicious (blocked allowed tlds : List String) (url : String) : Bool :=
  !decide (extract_host url = "") && !decide (extract_host url ∈ allowed) &&
    !decide (extract_host url ∈ blocked) && decide (tldOf (extract_host url) ∈ tlds)

theorem riskLoop_cons (blocked allowed tlds : List String) (url : String) (rest : List String) :
    riskLoop blocked allowed tlds (url :: rest) =
      if urlBlocked blocked allowed url then
        (8 + (riskLoop blocked allowed tlds rest).1,
          "phishing_domain" :: (riskLoop blocked allowed tlds rest).2)
      else if urlSuspicious blocked allowed tlds url then
        (4 + (riskLoop blocked allowed tlds rest).1,
          "suspicious_domain_tld" :: (riskLoop blocked allowed tlds rest).2)
      else riskLoop blocked allowed tlds rest := by
  simp only [riskLoop]
  split_ifs <;> simp_all [urlBlocked, urlSuspicious]

theorem riskLoop_spec (blocked allowed tlds : List String) (urls : List String) :
    (riskLoop blocked allowed tlds urls).1 =
      8 * (urls.countP (urlBlocked blocked allowed) : Int) +
        4 * (urls.countP (urlSuspicious blocked allowed tlds) : Int) ∧
    (riskLoop blocked allowed tlds urls).2.count "phishing_domain" =
      urls.countP (urlBlocked blocked allowed) ∧
    (riskLoop blocked allowed tlds urls).2.count "suspicious_domain_tld" =
      urls.countP (urlSuspicious blocked allowed tlds) ∧
    ∀ r ∈ (riskLoop blocked allowed tlds urls).2,
      r = "phishing_domain" ∨ r = "suspicious_domain_tld" := by
  induction urls with
  | nil => simp [riskLoop]
  | cons url rest ih =>
    obtain ⟨ih1, ih2, ih3, ih4⟩ := ih
    rw [riskLoop_cons]
    by_cases hb : urlBlocked blocked allowed url
    · have hs : urlSuspicious blocked allowed tlds url = false := by
        simp only [urlBlocked, Bool.and_eq_true] at hb
        simp [urlSuspicious, hb.2]
      refine ⟨?_, ?_, ?_, ?_⟩
      · simp only [if_pos hb, List.countP_cons, hb, hs]
        push_cast
        rw [ih1]
        ring
      · simp [if_pos hb, List.count_cons, List.countP_cons, hb, ih2]
      · simp [if_pos hb, List.count_cons, List.countP_cons, hs, ih3]
      · intro r hr
        simp only [if_pos hb, List.mem_cons] at hr
        rcases hr with h | h
        · exact Or.inl h
        · exact ih4 r h
    · by_cases hs : urlSuspicious blocked allowed tlds url
      · refine ⟨?_, ?_, ?_, ?_⟩
        · simp only [if_neg hb, if_pos hs, List.countP_cons, hs,
            Bool.eq_false_iff.mpr hb]
          push_cast
          rw [ih1]
          ring
        · simp [if_neg hb, if_pos hs, List.count_cons, List.countP_cons,
            Bool.eq_false_iff.mpr hb, ih2]
        · simp [if_neg hb, if_pos hs, List.count_cons, List.countP_cons, hs, ih3]
        · intro r hr
          simp only [if_neg hb, if_pos hs, List.mem_cons] at hr
          rcases hr with h | h
          · exact Or.inr h
          · exact ih4 r h
      · simp only [if_neg hb, if_neg hs, List.countP_cons,
          Bool.eq_false_iff.mpr hb, Bool.eq_false_iff.mpr hs]
        simpa using ⟨ih1, ih2, ih3, ih4⟩

/-- A configuration with two block-listed domains, refuting C4's
deduplication claim. -/
def twoBlockedCfg : SpamGuardConfig :=
  { defaultConfig with phishing_domains := ["a.bad", "b.bad"] }

/-- C4 as stated is false: `_score_url_risk` does *not* deduplicate the
reason list it returns — with two block-listed hosts in one message it
returns `phishing_domain` twice (deduplication only happens later, in
`score`). -/
theorem claim_C4_counterexample :
    (score_url_risk twoBlockedCfg ["https://a.bad", "https://b.bad"]).2 =
        ["phishing_domain", "phishing_domain"] ∧
      (score_url_risk twoBlockedCfg ["https://a.bad", "https://b.bad"]).2.count
        "phishing_domain" = 2 ∧
      (score_url_risk twoBlockedCfg ["https://a.bad", "https://b.bad"]).1 = 16 := by
  refine ⟨?_, ?_, ?_⟩ <;> decide

/-- C4 (amended): the URL analyzer's returned extra score accumulates 8 per
blocked host and 4 per suspicious-TLD host, but its reason list is *not*
deduplicated: it carries one `phishing_domain` per blocked host and one
`suspicious_domain_tld` per suspicious-TLD host (and nothing else);
deduplication is left to the later stage. -/
theorem claim_C4 (cfg : SpamGuardConfig) (urls : List String) :
    (score_url_risk cfg urls).1 =
      8 * (urls.countP (urlBlocked (cfg.phishing_domains.map strLower)
          (cfg.allow_domains.map strLower)) : Int) +
        4 * (urls.countP (urlSuspicious (cfg.phishing_domains.map strLower)
          (cfg.allow_domains.map strLower)
          (cfg.suspicious_tlds.map
            (fun t => String.mk ((strLower t).toList.dropWhile (fun c => c = '.'))))) : Int) ∧
    (score_url_risk cfg urls).2.count "phishing_domain" =
      urls.countP (urlBlocked (cfg.phishing_domains.map strLower)
        (cfg.allow_domains.map strLower)) ∧
    (score_url_risk cfg urls).2.count "suspicious_domain_tld" =
      urls.countP (urlSuspicious (cfg.phishing_domains.map strLower)
        (cfg.allow_domains.map strLower)
        (cfg.suspicious_tlds.map
          (fun t => String.mk ((strLower t).toList.dropWhile (fun c => c = '.'))))) ∧
    ∀ r ∈ (score_url_risk cfg urls).2,
      r = "phishing_domain" ∨ r = "suspicious_domain_tld" :=
  riskLoop_spec _ _ _ urls

/-- A fresh configuration store with defaults only, as after `load()` on a
missing file. -/
def freshStore : ConfigStoreState :=
  { default_config := defaultRawConfig, guild_configs := [], save_count := 0 }

/-- C6 as stated is false: `set_guild_value` begins with `get_guild_config`,
which lazily *creates and persists* a per-tenant document for a previously
unreferenced tenant before the unknown key is rejected — the call returns
false but the store's state has changed and a save occurred. -/
theorem claim_C6_counterexample :
    (set_guild_value freshStore 1 "bogus" (.vInt 0)).1 = false ∧
      (set_guild_value freshStore 1 "bogus" (.vInt 0)).2.guild_configs.length = 1 ∧
      freshStore.guild_configs.length = 0 ∧
      (set_guild_value freshStore 1 "bogus" (.vInt 0)).2.save_count =
        freshStore.save_count + 1 := by
  refine ⟨?_, ?_, ?_, ?_⟩ <;> decide

/-- C6 (amended): for a key not defined on `GuildConfig`, `set_guild_value`
returns false and modifies no field — the state after the call is exactly the
state after the embedded `get_guild_config` fetch; in particular, when the
tenant already has a config entry, the store is completely unchanged and
nothing is persisted, but for a previously unreferenced tenant the fetch
itself creates and persists a default-copied entry. -/
theorem claim_C6 (st : ConfigStoreState) (guild_id : Int) (key : String) (v : PyVal)
    (h : hasField (get_guild_config st guild_id).1 key = false) :
    (set_guild_value st guild_id key v).1 = false ∧
    (set_guild_value st guild_id key v).2 = (get_guild_config st guild_id).2 ∧
    ((st.guild_configs.find? (fun e => decide (e.1 = guild_id))).isSome →
      (set_guild_value st guild_id key v).2 = st) := by
  refine ⟨?_, ?_, ?_⟩
  · simp [set_guild_value, h]
  · simp [set_guild_value, h]
  · intro hmem
    simp only [set_guild_value, h, Bool.false_eq_true, if_false]
    unfold get_guild_config
    match hfind : st.guild_configs.find? (fun e => decide (e.1 = guild_id)) with
    | some e => rw [hfind]
    | none => rw [hfind] at hmem; simp at hmem

/-- Witness for C6's amended theorem: a store that already holds an entry for
tenant 1 is returned unchanged when an unknown key is set. -/
theorem claim_C6_witness :
    hasField (get_guild_config
        { default_config := defaultRawConfig
          guild_configs := [(1, defaultRawConfig)]
          save_count := 3 } 1).1 "bogus" = false ∧
      (set_guild_value
        { default_config := defaultRawConfig
          guild_configs := [(1, defaultRawConfig)]
          save_count := 3 } 1 "bogus" (.vInt 0)).2 =
        { default_config := defaultRawConfig
          guild_configs := [(1, defaultRawConfig)]
          save_count := 3 } :=
  ⟨by decide,
    (claim_C6 { default_config := defaultRawConfig
                guild_configs := [(1, defaultRawConfig)]
                save_count := 3 } 1 "bogus" (.vInt 0) (by decide)).2.2 (by decide)⟩

theorem lookupSession_removeSession (tbl : SessionTable) (k : Int × Int) :
    lookupSession (removeSession tbl k) k = none := by
  induction tbl with
  | nil => rfl
  | cons e rest ih =>
    simp only [removeSession, lookupSession] at ih ⊢
    by_cases h : e.1 = k
    · simp [List.filter, h, ih]
    · simp [List.filter, List.find?, h, ih]

theorem lookupSession_setSession (tbl : SessionTable) (k : Int × Int)
    (v : VerificationSession) (h : (lookupSession tbl k).isSome) :
    lookupSession (setSession tbl k v) k = some v := by
  induction tbl with
  | nil => simp [lookupSession] at h
  | cons e rest ih =>
    by_cases he : e.1 = k
    · simp [setSession, lookupSession, List.find?, he]
    · simp only [lookupSession, List.find?, decide_eq_true_eq, he, decide_False] at h ⊢
      simpa [setSession, lookupSession, List.find?, he] using ih h

/-- Result of a wrong attempt that does not reach the retry bound. -/
theorem verify_code_wrong_below (cfg : SpamGuardConfig) (tbl : SessionTable)
    (guild_id user_id : Int) (input : String) (now : Int)
    (session : VerificationSession)
    (henabled : cfg.verify_enabled = true)
    (hsess : lookupSession tbl (guild_id, user_id) = some session)
    (hexp : now ≤ session.expires_at)
    (hmis : session.code ≠ pyStrip input)
    (hbelow : session.attempts + 1 < max 1 cfg.verify_max_attempts) :
    verify_code cfg tbl false guild_id user_id input now =
      { ok := false
        msg := .remaining (max 1 cfg.verify_max_attempts - (session.attempts + 1))
        sessions := setSession tbl (guild_id, user_id)
          { session with attempts := session.attempts + 1 }
        fail_action_applied := false } := by
  simp only [verify_code, henabled, Bool.not_true, Bool.false_eq_true, if_false, hsess]
  rw [if_neg (by omega), if_pos hmis, if_neg (by omega)]

/-- Result of the wrong attempt that reaches the retry bound. -/
theorem verify_code_wrong_exhaust (cfg : SpamGuardConfig) (tbl : SessionTable)
    (guild_id user_id : Int) (input : String) (now : Int)
    (session : VerificationSession)
    (henabled : cfg.verify_enabled = true)
    (hsess : lookupSession tbl (guild_id, user_id) = some session)
    (hexp : now ≤ session.expires_at)
    (hmis : session.code ≠ pyStrip input)
    (hbound : session.attempts + 1 ≥ max 1 cfg.verify_max_attempts) :
    verify_code cfg tbl false guild_id user_id input now =
      { ok := false
        msg := .exhausted
        sessions := removeSession tbl (guild_id, user_id)
        fail_action_applied := true } := by
  simp only [verify_code, henabled, Bool.not_true, Bool.false_eq_true, if_false, hsess]
  rw [if_neg (by omega), if_pos hmis, if_pos (by omega)]

/-- C5: with a pending session and a non-matching trimmed code, each
`verify_code` call below the bound `max(1, verifyMaxAttempts)` increments the
stored attempt count and returns `(false, remaining)` without applying the
failure action; the wrong attempt that reaches the bound returns
`(false, exhausted)`, applies `verifyFailAction`, and clears the session, and
every later call for the same `(tenant, user)` reports "no session" without
applying the failure action again — the failure action is applied exactly
once. -/
theorem claim_C5 (cfg : SpamGuardConfig) (tbl : SessionTable)
    (guild_id user_id : Int) (input : String) (now : Int)
    (session : VerificationSession)
    (henabled : cfg.verify_enabled = true)
    (hsess : lookupSession tbl (guild_id, user_id) = some session)
    (hexp : now ≤ session.expires_at)
    (hmis : session.code ≠ pyStrip input) :
    (verify_code cfg tbl false guild_id user_id input now).ok = false ∧
    (session.attempts + 1 < max 1 cfg.verify_max_attempts →
      (verify_code cfg tbl false guild_id user_id input now).msg =
          .remaining (max 1 cfg.verify_max_attempts - (session.attempts + 1)) ∧
        (verify_code cfg tbl false guild_id user_id input now).fail_action_applied = false ∧
        lookupSession (verify_code cfg tbl false guild_id user_id input now).sessions
            (guild_id, user_id) =
          some { session with attempts := session.attempts + 1 }) ∧
    (session.attempts + 1 ≥ max 1 cfg.verify_max_attempts →
      (verify_code cfg tbl false guild_id user_id input now).msg = .exhausted ∧
        (verify_code cfg tbl false guild_id user_id input now).fail_action_applied = true ∧
        lookupSession (verify_code cfg tbl false guild_id user_id input now).sessions
            (guild_id, user_id) = none ∧
        ∀ (input2 : String) (now2 : Int),
          verify_code cfg (verify_code cfg tbl false guild_id user_id input now).sessions
              false guild_id user_id input2 now2 =
            { ok := false, msg := .noSession
              sessions := (verify_code cfg tbl false guild_id user_id input now).sessions
              fail_action_applied := false }) := by
  refine ⟨?_, fun hbelow => ?_, fun hbound => ?_⟩
  · by_cases hbelow : session.attempts + 1 < max 1 cfg.verify_max_attempts
    · rw [verify_code_wrong_below cfg tbl guild_id user_id input now session henabled hsess
        hexp hmis hbelow]
    · rw [verify_code_wrong_exhaust cfg tbl guild_id user_id input now session henabled hsess
        hexp hmis (by omega)]
  · rw [verify_code_wrong_below cfg tbl guild_id user_id input now session henabled hsess
      hexp hmis hbelow]
    refine ⟨rfl, rfl, ?_⟩
    exact lookupSession_setSession tbl (guild_id, user_id) _ (by rw [hsess]; rfl)
  · rw [verify_code_wrong_exhaust cfg tbl guild_id user_id input now session henabled hsess
      hexp hmis hbound]
    refine ⟨rfl, rfl, lookupSession_removeSession tbl (guild_id, user_id), ?_⟩
    intro input2 now2
    simp only [verify_code, henabled, Bool.not_true, Bool.false_eq_true, if_false,
      lookupSession_removeSession tbl (guild_id, user_id)]

/-- Witness for C5 at a concrete exhausted session. -/
theorem claim_C5_witness :
    (verify_code defaultConfig
        [((1, 2), { guild_id := 1, user_id := 2, code := "123456", expires_at := 600
                    attempts := 2 })] false 1 2 "000000" 10).fail_action_applied = true ∧
      lookupSession (verify_code defaultConfig
        [((1, 2), { guild_id := 1, user_id := 2, code := "123456", expires_at := 600
                    attempts := 2 })] false 1 2 "000000" 10).sessions (1, 2) = none :=
  ⟨((claim_C5 defaultConfig
      [((1, 2), { guild_id := 1, user_id := 2, code := "123456", expires_at := 600
                  attempts := 2 })] 1 2 "000000" 10
      { guild_id := 1, user_id := 2, code := "123456", expires_at := 600, attempts := 2 }
      (by decide) (by decide) (by decide) (by decide)).2.2 (by decide)).2.1,
    ((claim_C5 defaultConfig
      [((1, 2), { guild_id := 1, user_id := 2, code := "123456", expires_at := 600
                  attempts := 2 })] 1 2 "000000" 10
      { guild_id := 1, user_id := 2, code := "123456", expires_at := 600, attempts := 2 }
      (by decide) (by decide) (by decide) (by decide)).2.2 (by decide)).2.2.1⟩

theorem score_state_user_messages (cfg : SpamGuardConfig) (st : DetectorState)
    (s : MessageSnapshot) (uid : Int) :
    (score cfg st s).2.user_messages uid =
      if uid = s.user_id then
        (st.user_messages uid).dropWhile
          (fun t => decide (t < s.created_at - cfg.window_sec)) ++ [s.created_at]
      else st.user_messages uid := by
  simp only [score, raidFinalState, is_raid_active, pruneNewUserMessages, pruneJoins,
    newUserAppended, apply_ite
    (f := fun st : DetectorState => st.user_messages uid), scorePre, pruneUser, updAt]
  split <;> (by_cases h : uid = s.user_id <;> simp [h, msgHistoryOf])

theorem score_state_user_duplicates (cfg : SpamGuardConfig) (st : DetectorState)
    (s : MessageSnapshot) (uid : Int) :
    (score cfg st s).2.user_duplicates uid =
      if uid = s.user_id then
        (st.user_duplicates uid).dropWhile
          (fun e => decide (e.1 < s.created_at - cfg.duplicate_window_sec))
          ++ [(s.created_at, normalize s.content)]
      else st.user_duplicates uid := by
  simp only [score, raidFinalState, is_raid_active, pruneNewUserMessages, pruneJoins,
    newUserAppended, apply_ite
    (f := fun st : DetectorState => st.user_duplicates uid), scorePre, pruneUser, updAt]
  split <;> (by_cases h : uid = s.user_id <;> simp [h, dupHistoryOf])

theorem score_state_user_urls (cfg : SpamGuardConfig) (st : DetectorState)
    (s : MessageSnapshot) (uid : Int) :
    (score cfg st s).2.user_urls uid =
      if uid = s.user_id then
        (st.user_urls uid).dropWhile
          (fun e => decide (e.1 < s.created_at - cfg.url_repeat_window_sec))
          ++ ((findUrlsS s.content).map strLower).map (fun u => (s.created_at, u))
      else st.user_urls uid := by
  simp only [score, raidFinalState, is_raid_active, pruneNewUserMessages, pruneJoins,
    newUserAppended, apply_ite
    (f := fun st : DetectorState => st.user_urls uid), scorePre, pruneUser, updAt]
  split <;> (by_cases h : uid = s.user_id <;> simp [h, urlHistoryOf, urlsOf])

theorem score_state_user_offenses (cfg : SpamGuardConfig) (st : DetectorState)
    (s : MessageSnapshot) :
    (score cfg st s).2.user_offenses = st.user_offenses := by
  simp only [score, raidFinalState, is_raid_active, pruneNewUserMessages, pruneJoins,
    newUserAppended, apply_ite
    (f := fun st : DetectorState => st.user_offenses), scorePre, pruneUser]
  split <;> rfl

theorem score_state_recent_joins (cfg : SpamGuardConfig) (st : DetectorState)
    (s : MessageSnapshot) :
    (score cfg st s).2.recent_joins =
      st.recent_joins.dropWhile
        (fun e => decide (e.1 < s.created_at - cfg.raid_join_window_sec)) := by
  simp only [score, raidFinalState, is_raid_active, pruneNewUserMessages, pruneJoins,
    newUserAppended, apply_ite
    (f := fun st : DetectorState => st.recent_joins), scorePre, pruneUser]
  split <;> rfl

theorem score_state_recent_new_user_messages (cfg : SpamGuardConfig) (st : DetectorState)
    (s : MessageSnapshot) :
    (score cfg st s).2.recent_new_user_messages =
      (st.recent_new_user_messages ++
          (if is_recent_join cfg s s.created_at then [s.created_at] else [])).dropWhile
        (fun t => decide (t < s.created_at - cfg.raid_message_window_sec)) := by
  simp only [score, raidFinalState, is_raid_active, pruneNewUserMessages, pruneJoins,
    newUserAppended, scorePre, pruneUser]
  split <;> simp

/-- The snapshot that `handle_message` builds from an incoming message. -/
def snapshotOf (m : MessageModel) (now : Int) : MessageSnapshot :=
  { user_id := m.author_id, content := m.content, mention_count := m.mention_count
    created_at := now, account_created_at := m.account_created_at, joined_at := m.joined_at }

/-- C1: for a non-exempt message, the whole enforcement block — deleting the
message, calling `decide_enforcement`, performing the action, and emitting
the `SEC` event — happens if and only if the detector's score reaches the
tenant's `score_threshold` or the returned reasons contain `phishing_domain`
or `raid_activity`; when neither holds, `handle_message` returns
`enforced = false` and the offense ledger is untouched. -/
theorem claim_C1 (cfg : SpamGuardConfig) (st : DetectorState) (m : MessageModel) (now : Int)
    (hexempt : is_exempt m cfg = false) :
    (((handle_message cfg st m now).outcome.enforced = true ∧
        (handle_message cfg st m now).delete_attempted = true ∧
        (handle_message cfg st m now).decision.isSome ∧
        (handle_message cfg st m now).action_invoked.isSome ∧
        (handle_message cfg st m now).sec_event_emitted = true) ↔
      ((score cfg st (snapshotOf m now)).1.score ≥ cfg.score_threshold ∨
        "phishing_domain" ∈ (score cfg st (snapshotOf m now)).1.reasons ∨
        "raid_activity" ∈ (score cfg st (snapshotOf m now)).1.reasons)) ∧
    (¬((score cfg st (snapshotOf m now)).1.score ≥ cfg.score_threshold ∨
        "phishing_domain" ∈ (score cfg st (snapshotOf m now)).1.reasons ∨
        "raid_activity" ∈ (score cfg st (snapshotOf m now)).1.reasons) →
      (handle_message cfg st m now).outcome = { enforced := false, event_id := none } ∧
        ∀ uid, (handle_message cfg st m now).detector.user_offenses uid =
          st.user_offenses uid) := by
  have hgate : (decide ((score cfg st (snapshotOf m now)).1.score ≥ cfg.score_threshold) ||
      (score cfg st (snapshotOf m now)).1.reasons.any
        (fun r => r = "phishing_domain" || r = "raid_activity")) = true ↔
      ((score cfg st (snapshotOf m now)).1.score ≥ cfg.score_threshold ∨
        "phishing_domain" ∈ (score cfg st (snapshotOf m now)).1.reasons ∨
        "raid_activity" ∈ (score cfg st (snapshotOf m now)).1.reasons) := by
    simp only [Bool.or_eq_true, decide_eq_true_eq, List.any_eq_true]
    constructor
    · rintro (h | ⟨r, hr, hor⟩)
      · exact Or.inl h
      · rcases hor with h | h
        · exact Or.inr (Or.inl (h ▸ hr))
        · exact Or.inr (Or.inr (h ▸ hr))
    · rintro (h | h | h)
      · exact Or.inl h
      · exact Or.inr ⟨_, h, by simp⟩
      · exact Or.inr ⟨_, h, by simp⟩
  by_cases hg : (decide ((score cfg st (snapshotOf m now)).1.score ≥ cfg.score_threshold) ||
      (score cfg st (snapshotOf m now)).1.reasons.any
        (fun r => r = "phishing_domain" || r = "raid_activity")) = true
  · have he : handle_message cfg st m now =
        { outcome := { enforced := true, event_id := some () }
          detector := (decide_enforcement cfg (score cfg st (snapshotOf m now)).2
            m.author_id now).2
          decision := some (decide_enforcement cfg (score cfg st (snapshotOf m now)).2
            m.author_id now).1
          delete_attempted := true
          action_invoked := some (decide_enforcement cfg (score cfg st (snapshotOf m now)).2
            m.author_id now).1.action
          sec_event_emitted := true } := by
      simp only [handle_message, hexempt, Bool.false_eq_true, if_false]
      rw [if_pos (by exact hg)]
      rfl
    constructor
    · rw [he, ← hgate]
      simp [hg]
    · intro hng
      exact absurd (hgate.mp hg) hng
  · have hne : handle_message cfg st m now =
        { outcome := { enforced := false, event_id := none }
          detector := (score cfg st (snapshotOf m now)).2
          decision := none
          delete_attempted := false
          action_invoked := none
          sec_event_emitted := false } := by
      simp only [handle_message, hexempt, Bool.false_eq_true, if_false]
      rw [if_neg (by exact hg)]
      rfl
    constructor
    · rw [hne, ← hgate]
      constructor
      · rintro ⟨hcon, _⟩
        exact absurd hcon (by simp)
      · intro hb
        exact absurd hb hg
    · intro _
      rw [hne]
      exact ⟨rfl, fun uid => by rw [score_state_user_offenses]⟩

/-- Witness for C1 at a concrete non-exempt message (the phishing test
scenario, which passes the gate via the forced `phishing_domain` reason). -/
theorem claim_C1_witness :
    is_exempt
        { guild_id := 1, channel_id := 5, author_id := 20, author_role_ids := []
          content := "https://login-discord-security.example/path", mention_count := 0
          account_created_at := -1000000, joined_at := none }
        { defaultConfig with phishing_domains := ["login-discord-security.example"] } =
      false ∧
    ((handle_message
        { defaultConfig with phishing_domains := ["login-discord-security.example"] }
        emptyDetector
        { guild_id := 1, channel_id := 5, author_id := 20, author_role_ids := []
          content := "https://login-discord-security.example/path", mention_count := 0
          account_created_at := -1000000, joined_at := none } 0).outcome.enforced = true ∧
      (handle_message
        { defaultConfig with phishing_domains := ["login-discord-security.example"] }
        emptyDetector
        { guild_id := 1, channel_id := 5, author_id := 20, author_role_ids := []
          content := "https://login-discord-security.example/path", mention_count := 0
          account_created_at := -1000000, joined_at := none } 0).delete_attempted = true ∧
      (handle_message
        { defaultConfig with phishing_domains := ["login-discord-security.example"] }
        emptyDetector
        { guild_id := 1, channel_id := 5, author_id := 20, author_role_ids := []
          content := "https://login-discord-security.example/path", mention_count := 0
          account_created_at := -1000000, joined_at := none } 0).decision.isSome ∧
      (handle_message
        { defaultConfig with phishing_domains := ["login-discord-security.example"] }
        emptyDetector
        { guild_id := 1, channel_id := 5, author_id := 20, author_role_ids := []
          content := "https://login-discord-security.example/path", mention_count := 0
          account_created_at := -1000000, joined_at := none } 0).action_invoked.isSome ∧
      (handle_message
        { defaultConfig with phishing_domains := ["login-discord-security.example"] }
        emptyDetector
        { guild_id := 1, channel_id := 5, author_id := 20, author_role_ids := []
          content := "https://login-discord-security.example/path", mention_count := 0
          account_created_at := -1000000, joined_at := none } 0).sec_event_emitted = true) :=
  ⟨by decide,
    (claim_C1
      { defaultConfig with phishing_domains := ["login-discord-security.example"] }
      emptyDetector
      { guild_id := 1, channel_id := 5, author_id := 20, author_role_ids := []
        content := "https://login-discord-security.example/path", mention_count := 0
        account_created_at := -1000000, joined_at := none } 0 (by decide)).1.mpr
      (Or.inr (Or.inl (by decide)))⟩

theorem mem_if_singleton {c : Bool} {x r : String} :
    (r ∈ if c then [x] else ([] : List String)) ↔ (c = true ∧ r = x) := by
  cases c <;> simp

theorem riskReasons_tags (cfg : SpamGuardConfig) (s : MessageSnapshot) :
    ∀ r ∈ riskReasonsOf cfg s, r = "phishing_domain" ∨ r = "suspicious_domain_tld" := by
  intro r hr
  unfold riskReasonsOf at hr
  split at hr
  · simp at hr
  · exact (riskLoop_spec _ _ _ (urlsOf s)).2.2.2 r (by simpa [score_url_risk] using hr)

theorem scorePre_reasons_eq (cfg : SpamGuardConfig) (st : DetectorState) (s : MessageSnapshot) :
    (scorePre cfg st s).2.1 =
      (if rapidFlag cfg st s then ["rapid_posting"] else []) ++
        (if dupFlag cfg st s then ["duplicate_messages"] else []) ++
        (if urlSpamFlag cfg s then ["url_spam"] else []) ++
        (if urlRepeatFlag cfg st s then ["repeated_url_posts"] else []) ++
        riskReasonsOf cfg s ++ (if mentionFlag cfg s then ["mention_spam"] else []) ++
        (if newAccountFlag s then ["new_account"] else []) := rfl

theorem scorePre_score_eq (cfg : SpamGuardConfig) (st : DetectorState) (s : MessageSnapshot) :
    (scorePre cfg st s).1 =
      (if rapidFlag cfg st s then 2 else 0) + (if dupFlag cfg st s then 3 else 0) +
        (if urlSpamFlag cfg s then 3 else 0) + (if urlRepeatFlag cfg st s then 3 else 0) +
        riskScoreOf cfg s + (if mentionFlag cfg s then 3 else 0) +
        (if newAccountFlag s then 1 else 0) := rfl

theorem mem_scorePre_reasons (cfg : SpamGuardConfig) (st : DetectorState) (s : MessageSnapshot)
    (r : String) :
    r ∈ (scorePre cfg st s).2.1 ↔
      ((rapidFlag cfg st s = true ∧ r = "rapid_posting") ∨
        (dupFlag cfg st s = true ∧ r = "duplicate_messages") ∨
        (urlSpamFlag cfg s = true ∧ r = "url_spam") ∨
        (urlRepeatFlag cfg st s = true ∧ r = "repeated_url_posts") ∨
        r ∈ riskReasonsOf cfg s ∨
        (mentionFlag cfg s = true ∧ r = "mention_spam") ∨
        (newAccountFlag s = true ∧ r = "new_account")) := by
  rw [scorePre_reasons_eq]
  simp only [List.mem_append, mem_if_singleton, or_assoc]

theorem mem_score_reasons (cfg : SpamGuardConfig) (st : DetectorState) (s : MessageSnapshot)
    (r : String) :
    r ∈ (score cfg st s).1.reasons ↔
      (r ∈ (scorePre cfg st s).2.1 ∨
        (raidActiveOf cfg st s = true ∧
          (r = "raid_join_surge" ∨ (raidActivityOf cfg st s = true ∧ r = "raid_activity")))) := by
  show r ∈ dedupe _ ↔ _
  rw [mem_dedupe, List.mem_append]
  by_cases ha : raidActiveOf cfg st s
  · by_cases hact : raidActivityOf cfg st s
    · simp [ha, hact]
    · simp [ha, hact]
  · have hact : raidActivityOf cfg st s = false := by
      simp [raidActivityOf, ha]
    simp [ha, hact]

theorem mem_score_repeated (cfg : SpamGuardConfig) (st : DetectorState) (s : MessageSnapshot) :
    "repeated_url_posts" ∈ (score cfg st s).1.reasons ↔ urlRepeatFlag cfg st s = true := by
  rw [mem_score_reasons, mem_scorePre_reasons]
  constructor
  · rintro (h | h)
    · rcases h with ⟨_, h⟩ | ⟨_, h⟩ | ⟨_, h⟩ | ⟨h, _⟩ | h | ⟨_, h⟩ | ⟨_, h⟩ <;>
        first
          | exact h
          | simp at h
          | (rcases riskReasons_tags cfg s _ h with h' | h' <;> simp at h')
    · rcases h with ⟨_, h | ⟨_, h⟩⟩ <;> simp at h
  · intro h
    exact Or.inl (Or.inr (Or.inr (Or.inr (Or.inl ⟨h, rfl⟩))))

/-- C3 as stated is false: the entries appended to `urlPosts` are the whole
matched URLs lower-cased (scheme and all), not canonicalized host+path.  For
the single-URL message `https://EXAMPLE.com/x` the stored entry is
`https://example.com/x`, while the spec's canonical host+path for that URL is
`example.com/x`. -/
theorem claim_C3_counterexample :
    (score defaultConfig emptyDetector
        { user_id := 1, content := "https://EXAMPLE.com/x", mention_count := 0
          created_at := 0, account_created_at := -172800
          joined_at := none }).2.user_urls 1 = [(0, "https://example.com/x")] ∧
      specCanonicalHostPath "https://EXAMPLE.com/x" = "example.com/x" ∧
      ("https://example.com/x" : String) ≠ "example.com/x" := by
  refine ⟨?_, ?_, ?_⟩ <;> decide

/-- C3 (amended): every entry `score` appends to a user's `urlPosts` history
is a whole extracted URL lower-cased (no host canonicalization — that happens
only in the URL-reputation classifier), and the `repeated_url_posts` tag
fires if and only if the message has URLs and some URL of the current message
occurs at least `url_repeat_threshold` times among the pruned-and-appended
lower-cased entries. -/
theorem claim_C3 (cfg : SpamGuardConfig) (st : DetectorState) (s : MessageSnapshot) :
    (score cfg st s).2.user_urls s.user_id =
      (st.user_urls s.user_id).dropWhile
        (fun e => decide (e.1 < s.created_at - cfg.url_repeat_window_sec))
        ++ ((findUrlsS s.content).map strLower).map (fun u => (s.created_at, u)) ∧
    ("repeated_url_posts" ∈ (score cfg st s).1.reasons ↔
      ((findUrlsS s.content).map strLower ≠ [] ∧
        ∃ u ∈ (findUrlsS s.content).map strLower,
          (((urlHistoryOf cfg st s).countP (fun e => decide (e.2 = u)) : Int) ≥
            cfg.url_repeat_threshold))) := by
  constructor
  · rw [score_state_user_urls]
    simp
  · rw [mem_score_repeated]
    simp only [urlRepeatFlag, Bool.and_eq_true, Bool.not_eq_true', List.any_eq_true,
      decide_eq_true_eq, urlsOf]
    constructor
    · rintro ⟨h1, u, hu, hcount⟩
      exact ⟨by simpa [List.isEmpty_iff] using h1, u, hu, hcount⟩
    · rintro ⟨h1, u, hu, hcount⟩
      exact ⟨by simpa [List.isEmpty_iff] using h1, u, hu, hcount⟩

theorem not_mem_scorePre_surge (cfg : SpamGuardConfig) (st : DetectorState)
    (s : MessageSnapshot) : "raid_join_surge" ∉ (scorePre cfg st s).2.1 := by
  rw [mem_scorePre_reasons]
  rintro (⟨_, h⟩ | ⟨_, h⟩ | ⟨_, h⟩ | ⟨_, h⟩ | h | ⟨_, h⟩ | ⟨_, h⟩) <;>
    first
      | simp at h
      | (rcases riskReasons_tags cfg s _ h with h' | h' <;> simp at h')

theorem not_mem_scorePre_activity (cfg : SpamGuardConfig) (st : DetectorState)
    (s : MessageSnapshot) : "raid_activity" ∉ (scorePre cfg st s).2.1 := by
  rw [mem_scorePre_reasons]
  rintro (⟨_, h⟩ | ⟨_, h⟩ | ⟨_, h⟩ | ⟨_, h⟩ | h | ⟨_, h⟩ | ⟨_, h⟩) <;>
    first
      | simp at h
      | (rcases riskReasons_tags cfg s _ h with h' | h' <;> simp at h')

theorem mem_score_surge (cfg : SpamGuardConfig) (st : DetectorState) (s : MessageSnapshot) :
    "raid_join_surge" ∈ (score cfg st s).1.reasons ↔ raidActiveOf cfg st s = true := by
  rw [mem_score_reasons]
  constructor
  · rintro (h | ⟨ha, _⟩)
    · exact absurd h (not_mem_scorePre_surge cfg st s)
    · exact ha
  · intro ha
    exact Or.inr ⟨ha, Or.inl rfl⟩

theorem mem_score_activity (cfg : SpamGuardConfig) (st : DetectorState) (s : MessageSnapshot) :
    "raid_activity" ∈ (score cfg st s).1.reasons ↔ raidActivityOf cfg st s = true := by
  rw [mem_score_reasons]
  constructor
  · rintro (h | ⟨ha, h | ⟨hact, _⟩⟩)
    · exact absurd h (not_mem_scorePre_activity cfg st s)
    · simp at h
    · exact hact
  · intro hact
    have ha : raidActiveOf cfg st s = true := by
      have := hact
      simp only [raidActivityOf, Bool.and_eq_true] at this
      exact this.1
    exact Or.inr ⟨ha, Or.inr ⟨hact, rfl⟩⟩

theorem raidActiveOf_eq (cfg : SpamGuardConfig) (st : DetectorState) (s : MessageSnapshot) :
    raidActiveOf cfg st s =
      decide (((st.recent_joins.dropWhile
        (fun e => decide (e.1 < s.created_at - cfg.raid_join_window_sec))).length : Int) ≥
        cfg.raid_join_threshold) := by
  simp only [raidActiveOf, is_raid_active, pruneNewUserMessages, pruneJoins, newUserAppended,
    apply_ite (f := fun st : DetectorState => st.recent_joins), scorePre, pruneUser]
  split <;> rfl

theorem score_snd_eq (cfg : SpamGuardConfig) (st : DetectorState) (s : MessageSnapshot) :
    (score cfg st s).2 = raidFinalState cfg st s := rfl

/-- C9: when the author's `joined_at` is present and within
`new_member_window_sec` of `created_at`, the message's timestamp is appended
to `recent_new_user_messages` before the raid check prunes and tests, so the
freshly appended message itself counts: `raid_join_surge` (+2) fires iff the
pruned join count reaches `raid_join_threshold`, and `raid_activity` (a
further +5) fires iff additionally the pruned new-user-message count — which
includes the current message — reaches `raid_new_user_message_threshold`. -/
theorem claim_C9 (cfg : SpamGuardConfig) (st : DetectorState) (s : MessageSnapshot) (j : Int)
    (hj : s.joined_at = some j)
    (hwin : s.created_at - j ≤ cfg.new_member_window_sec) :
    (score cfg st s).2.recent_new_user_messages =
      (st.recent_new_user_messages ++ [s.created_at]).dropWhile
        (fun t => decide (t < s.created_at - cfg.raid_message_window_sec)) ∧
    ("raid_join_surge" ∈ (score cfg st s).1.reasons ↔
      ((st.recent_joins.dropWhile
        (fun e => decide (e.1 < s.created_at - cfg.raid_join_window_sec))).length : Int) ≥
        cfg.raid_join_threshold) ∧
    ("raid_activity" ∈ (score cfg st s).1.reasons ↔
      ((((st.recent_joins.dropWhile
          (fun e => decide (e.1 < s.created_at - cfg.raid_join_window_sec))).length : Int) ≥
          cfg.raid_join_threshold) ∧
        (((score cfg st s).2.recent_new_user_messages.length : Int) ≥
          cfg.raid_new_user_message_threshold))) ∧
    (score cfg st s).1.score = (scorePre cfg st s).1 +
      (if (((st.recent_joins.dropWhile
          (fun e => decide (e.1 < s.created_at - cfg.raid_join_window_sec))).length : Int) ≥
          cfg.raid_join_threshold) then 2 else 0) +
      (if ((((st.recent_joins.dropWhile
            (fun e => decide (e.1 < s.created_at - cfg.raid_join_window_sec))).length : Int) ≥
            cfg.raid_join_threshold) ∧
          (((score cfg st s).2.recent_new_user_messages.length : Int) ≥
            cfg.raid_new_user_message_threshold)) then 5 else 0) := by
  have hrj : is_recent_join cfg s s.created_at = true := by
    rw [is_recent_join, hj]
    exact decide_eq_true hwin
  have hact_eq : raidActivityOf cfg st s = true ↔
      (((st.recent_joins.dropWhile
        (fun e => decide (e.1 < s.created_at - cfg.raid_join_window_sec))).length : Int) ≥
        cfg.raid_join_threshold ∧
      (((score cfg st s).2.recent_new_user_messages.length : Int) ≥
        cfg.raid_new_user_message_threshold)) := by
    rw [raidActivityOf, Bool.and_eq_true, raidActiveOf_eq, ← score_snd_eq]
    simp
  refine ⟨?_, ?_, ?_, ?_⟩
  · rw [score_state_recent_new_user_messages, hrj]
    simp
  · rw [mem_score_surge, raidActiveOf_eq]
    simp
  · rw [mem_score_activity, hact_eq]
  · show (scorePre cfg st s).1 +
        (if raidActiveOf cfg st s then (if raidActivityOf cfg st s then (7 : Int) else 2)
         else 0) = _
    rw [raidActiveOf_eq]
    by_cases hjoins : (((st.recent_joins.dropWhile
        (fun e => decide (e.1 < s.created_at - cfg.raid_join_window_sec))).length : Int) ≥
        cfg.raid_join_threshold)
    · by_cases hmsgs : (((score cfg st s).2.recent_new_user_messages.length : Int) ≥
          cfg.raid_new_user_message_threshold)
      · have hA : raidActivityOf cfg st s = true := hact_eq.mpr ⟨hjoins, hmsgs⟩
        rw [if_pos (decide_eq_true hjoins), hA, if_pos hjoins,
          if_pos (show _ ∧ _ from ⟨hjoins, hmsgs⟩)]
        simp only [if_true]
        ring
      · have hA : raidActivityOf cfg st s = false := by
          rw [← Bool.not_eq_true, hact_eq]
          rintro ⟨_, h⟩
          exact hmsgs h
        rw [if_pos (decide_eq_true hjoins), hA, if_pos hjoins,
          if_neg (fun h : _ ∧ _ => hmsgs h.2)]
        norm_num
    · rw [if_neg (fun h => hjoins (of_decide_eq_true h)), if_neg hjoins,
        if_neg (fun h : _ ∧ _ => hjoins h.1)]
      norm_num

/-- Witness for C9 at the raid scenario of the test suite (three joins within
the window, second new-member message). -/
theorem claim_C9_witness :
    ({ defaultConfig with
        raid_join_window_sec := 30, raid_join_threshold := 3
        raid_message_window_sec := 30, raid_new_user_message_threshold := 2
        new_member_window_sec := 1800 } : SpamGuardConfig).new_member_window_sec = 1800 ∧
    "raid_activity" ∈
      (score
        { defaultConfig with
          raid_join_window_sec := 30, raid_join_threshold := 3
          raid_message_window_sec := 30, raid_new_user_message_threshold := 2
          new_member_window_sec := 1800 }
        (score
          { defaultConfig with
            raid_join_window_sec := 30, raid_join_threshold := 3
            raid_message_window_sec := 30, raid_new_user_message_threshold := 2
            new_member_window_sec := 1800 }
          (register_join
            { defaultConfig with
              raid_join_window_sec := 30, raid_join_threshold := 3
              raid_message_window_sec := 30, raid_new_user_message_threshold := 2
              new_member_window_sec := 1800 }
            (register_join
              { defaultConfig with
                raid_join_window_sec := 30, raid_join_threshold := 3
                raid_message_window_sec := 30, raid_new_user_message_threshold := 2
                new_member_window_sec := 1800 }
              (register_join
                { defaultConfig with
                  raid_join_window_sec := 30, raid_join_threshold := 3
                  raid_message_window_sec := 30, raid_new_user_message_threshold := 2
                  new_member_window_sec := 1800 }
                emptyDetector 101 0)
              102 2)
            103 4)
          { user_id := 101, content := "hi", mention_count := 0, created_at := 5
            account_created_at := -259200, joined_at := some 0 }).2
        { user_id := 102, content := "raid", mention_count := 0, created_at := 6
          account_created_at := -259200, joined_at := some 2 }).1.reasons := by
  constructor
  · rfl
  · refine ((claim_C9 _ _
      { user_id := 102, content := "raid", mention_count := 0, created_at := 6
        account_created_at := -259200, joined_at := some 2 } 2 rfl
      (by decide)).2.2.1).mpr ?_
    refine ⟨by decide, by decide⟩

/-- The C8 invariant: every history sequence of the detector is in
non-decreasing time order. -/
def DetSorted (st : DetectorState) : Prop :=
  (∀ uid, (st.user_messages uid).Sorted (· ≤ ·)) ∧
  (∀ uid, ((st.user_duplicates uid).map Prod.fst).Sorted (· ≤ ·)) ∧
  (∀ uid, ((st.user_urls uid).map Prod.fst).Sorted (· ≤ ·)) ∧
  (∀ uid, (st.user_offenses uid).Sorted (· ≤ ·)) ∧
  ((st.recent_joins.map Prod.fst).Sorted (· ≤ ·)) ∧
  (st.recent_new_user_messages.Sorted (· ≤ ·))

/-- Auxiliary invariant: every stored timestamp is at most the clock `c`. -/
def DetBounded (st : DetectorState) (c : Int) : Prop :=
  (∀ uid, ∀ t ∈ st.user_messages uid, t ≤ c) ∧
  (∀ uid, ∀ e ∈ st.user_duplicates uid, e.1 ≤ c) ∧
  (∀ uid, ∀ e ∈ st.user_urls uid, e.1 ≤ c) ∧
  (∀ uid, ∀ t ∈ st.user_offenses uid, t ≤ c) ∧
  (∀ e ∈ st.recent_joins, e.1 ≤ c) ∧
  (∀ t ∈ st.recent_new_user_messages, t ≤ c)

/-- The three mutating detector operations. -/
inductive DetOp where
  | opScore (s : MessageSnapshot)
  | opJoin (user_id joined_at : Int)
  | opDecide (user_id now : Int)

/-- The time argument an operation passes to the detector. -/
def opTime : DetOp → Int
  | .opScore s => s.created_at
  | .opJoin _ t => t
  | .opDecide _ t => t

/-- State effect of one detector operation. -/
def applyOp (cfg : SpamGuardConfig) (st : DetectorState) : DetOp → DetectorState
  | .opScore s => (score cfg st s).2
  | .opJoin uid t => register_join cfg st uid t
  | .opDecide uid t => (decide_enforcement cfg st uid t).2

/-- A sequence of detector calls from a starting state. -/
def runOps (cfg : SpamGuardConfig) (st : DetectorState) (ops : List DetOp) : DetectorState :=
  ops.foldl (applyOp cfg) st

theorem sorted_dropWhile {l : List Int} (p : Int → Bool) (h : l.Sorted (· ≤ ·)) :
    (l.dropWhile p).Sorted (· ≤ ·) :=
  List.Pairwise.sublist (List.dropWhile_sublist p) h

theorem sorted_append_one {l : List Int} {now : Int} (h : l.Sorted (· ≤ ·))
    (hb : ∀ t ∈ l, t ≤ now) : (l ++ [now]).Sorted (· ≤ ·) := by
  refine List.pairwise_append.mpr ⟨h, List.sorted_singleton now, fun x hx y hy => ?_⟩
  rw [List.mem_singleton] at hy
  subst hy
  exact hb x hx

theorem sorted_of_all_eq {xs : List Int} {c : Int} (h : ∀ x ∈ xs, x = c) :
    xs.Sorted (· ≤ ·) := by
  induction xs with
  | nil => simp
  | cons a t ih =>
    rw [List.sorted_cons]
    refine ⟨fun b hb => ?_, ih fun x hx => h x (List.mem_cons_of_mem _ hx)⟩
    rw [h a (List.mem_cons_self _ _), h b (List.mem_cons_of_mem _ hb)]

theorem sorted_append_all_eq {l xs : List Int} (now : Int) (h : l.Sorted (· ≤ ·))
    (hb : ∀ t ∈ l, t ≤ now) (hc : ∀ x ∈ xs, x = now) : (l ++ xs).Sorted (· ≤ ·) := by
  refine List.pairwise_append.mpr ⟨h, sorted_of_all_eq hc, fun x hx y hy => ?_⟩
  rw [hc y hy]
  exact hb x hx

theorem map_fst_dropWhile {α : Type} (l : List (Int × α)) (cut : Int) :
    (l.dropWhile (fun e => decide (e.1 < cut))).map Prod.fst =
      (l.map Prod.fst).dropWhile (fun t => decide (t < cut)) := by
  induction l with
  | nil => rfl
  | cons e t ih =>
    by_cases h : e.1 < cut <;> simp [List.dropWhile_cons, h, ih]

theorem mem_of_mem_dropWhile {α : Type} {p : α → Bool} {l : List α} {x : α}
    (h : x ∈ l.dropWhile p) : x ∈ l :=
  (List.dropWhile_sublist p).subset h

theorem inv_score (cfg : SpamGuardConfig) (st : DetectorState) (s : MessageSnapshot) (c : Int)
    (hs : DetSorted st) (hb : DetBounded st c) (hc : c ≤ s.created_at) :
    DetSorted (score cfg st s).2 ∧ DetBounded (score cfg st s).2 s.created_at := by
  obtain ⟨hs1, hs2, hs3, hs4, hs5, hs6⟩ := hs
  obtain ⟨hb1, hb2, hb3, hb4, hb5, hb6⟩ := hb
  constructor
  · refine ⟨fun uid => ?_, fun uid => ?_, fun uid => ?_, fun uid => ?_, ?_, ?_⟩
    · rw [score_state_user_messages]
      split
      · exact sorted_append_one (sorted_dropWhile _ (hs1 uid))
          (fun t ht => le_trans (hb1 uid t (mem_of_mem_dropWhile ht)) hc)
      · exact hs1 uid
    · rw [score_state_user_duplicates]
      split
      · rw [List.map_append, map_fst_dropWhile]
        exact sorted_append_one (sorted_dropWhile _ (hs2 uid))
          (fun t ht => by
            rw [← map_fst_dropWhile] at ht
            obtain ⟨e, he, rfl⟩ := List.mem_map.mp ht
            exact le_trans (hb2 uid e (mem_of_mem_dropWhile he)) hc)
      · exact hs2 uid
    · rw [score_state_user_urls]
      split
      · rw [List.map_append, map_fst_dropWhile]
        refine sorted_append_all_eq s.created_at (sorted_dropWhile _ (hs3 uid))
          (fun t ht => ?_) (fun x hx => ?_)
        · rw [← map_fst_dropWhile] at ht
          obtain ⟨e, he, rfl⟩ := List.mem_map.mp ht
          exact le_trans (hb3 uid e (mem_of_mem_dropWhile he)) hc
        · rw [List.map_map] at hx
          obtain ⟨u, _, rfl⟩ := List.mem_map.mp hx
          rfl
      · exact hs3 uid
    · rw [score_state_user_offenses]
      exact hs4 uid
    · rw [score_state_recent_joins, map_fst_dropWhile]
      exact sorted_dropWhile _ hs5
    · rw [score_state_recent_new_user_messages]
      apply sorted_dropWhile
      split
      · exact sorted_append_one hs6 (fun t ht => le_trans (hb6 t ht) hc)
      · simpa using hs6
  · refine ⟨fun uid t ht => ?_, fun uid e he => ?_, fun uid e he => ?_,
      fun uid t ht => ?_, fun e he => ?_, fun t ht => ?_⟩
    · rw [score_state_user_messages] at ht
      split at ht
      · rcases List.mem_append.mp ht with h | h
        · exact le_trans (hb1 _ t (mem_of_mem_dropWhile h)) hc
        · rw [List.mem_singleton] at h
          exact le_of_eq h
      · exact le_trans (hb1 uid t ht) hc
    · rw [score_state_user_duplicates] at he
      split at he
      · rcases List.mem_append.mp he with h | h
        · exact le_trans (hb2 _ e (mem_of_mem_dropWhile h)) hc
        · rw [List.mem_singleton] at h
          rw [h]
      · exact le_trans (hb2 uid e he) hc
    · rw [score_state_user_urls] at he
      split at he
      · rcases List.mem_append.mp he with h | h
        · exact le_trans (hb3 _ e (mem_of_mem_dropWhile h)) hc
        · obtain ⟨u, _, rfl⟩ := List.mem_map.mp h
          exact le_refl _
      · exact le_trans (hb3 uid e he) hc
    · rw [score_state_user_offenses] at ht
      exact le_trans (hb4 uid t ht) hc
    · rw [score_state_recent_joins] at he
      exact le_trans (hb5 e (mem_of_mem_dropWhile he)) hc
    · rw [score_state_recent_new_user_messages] at ht
      have ht' := mem_of_mem_dropWhile ht
      rcases List.mem_append.mp ht' with h | h
      · exact le_trans (hb6 t h) hc
      · split at h
        · rw [List.mem_singleton] at h
          exact le_of_eq h
        · simp at h

theorem inv_join (cfg : SpamGuardConfig) (st : DetectorState) (uid t : Int) (c : Int)
    (hs : DetSorted st) (hb : DetBounded st c) (hc : c ≤ t) :
    DetSorted (register_join cfg st uid t) ∧ DetBounded (register_join cfg st uid t) t := by
  obtain ⟨hs1, hs2, hs3, hs4, hs5, hs6⟩ := hs
  obtain ⟨hb1, hb2, hb3, hb4, hb5, hb6⟩ := hb
  constructor
  · refine ⟨hs1, hs2, hs3, hs4, ?_, hs6⟩
    show ((st.recent_joins ++ [(t, uid)]).dropWhile _).map Prod.fst |>.Sorted (· ≤ ·)
    rw [map_fst_dropWhile]
    apply sorted_dropWhile
    rw [List.map_append]
    exact sorted_append_one hs5
      (fun x hx => by
        obtain ⟨e, he, rfl⟩ := List.mem_map.mp hx
        exact le_trans (hb5 e he) hc)
  · refine ⟨fun uid' x hx => le_trans (hb1 uid' x hx) hc,
      fun uid' e he => le_trans (hb2 uid' e he) hc,
      fun uid' e he => le_trans (hb3 uid' e he) hc,
      fun uid' x hx => le_trans (hb4 uid' x hx) hc, fun e he => ?_,
      fun x hx => le_trans (hb6 x hx) hc⟩
    have he' := mem_of_mem_dropWhile he
    rcases List.mem_append.mp he' with h | h
    · exact le_trans (hb5 e h) hc
    · rw [List.mem_singleton] at h
      rw [h]

theorem decide_state_offenses (cfg : SpamGuardConfig) (st : DetectorState)
    (uid now uid' : Int) :
    (decide_enforcement cfg st uid now).2.user_offenses uid' =
      if uid' = uid then
        (st.user_offenses uid').dropWhile
          (fun x => decide (x < now - cfg.offense_window_sec)) ++ [now]
      else st.user_offenses uid' := by
  by_cases h : uid' = uid <;> simp [decide_enforcement, updAt, h]

theorem inv_decide (cfg : SpamGuardConfig) (st : DetectorState) (uid now : Int) (c : Int)
    (hs : DetSorted st) (hb : DetBounded st c) (hc : c ≤ now) :
    DetSorted (decide_enforcement cfg st uid now).2 ∧
      DetBounded (decide_enforcement cfg st uid now).2 now := by
  obtain ⟨hs1, hs2, hs3, hs4, hs5, hs6⟩ := hs
  obtain ⟨hb1, hb2, hb3, hb4, hb5, hb6⟩ := hb
  constructor
  · refine ⟨hs1, hs2, hs3, fun uid' => ?_, hs5, hs6⟩
    rw [decide_state_offenses]
    split
    · exact sorted_append_one (sorted_dropWhile _ (hs4 uid'))
        (fun x hx => le_trans (hb4 _ x (mem_of_mem_dropWhile hx)) hc)
    · exact hs4 uid'
  · refine ⟨fun uid' x hx => le_trans (hb1 uid' x hx) hc,
      fun uid' e he => le_trans (hb2 uid' e he) hc,
      fun uid' e he => le_trans (hb3 uid' e he) hc, fun uid' x hx => ?_,
      fun e he => le_trans (hb5 e he) hc, fun x hx => le_trans (hb6 x hx) hc⟩
    rw [decide_state_offenses] at hx
    split at hx
    · rcases List.mem_append.mp hx with h | h
      · exact le_trans (hb4 _ x (mem_of_mem_dropWhile h)) hc
      · rw [List.mem_singleton] at h
        exact le_of_eq h
    · exact le_trans (hb4 uid' x hx) hc

theorem runOps_inv (cfg : SpamGuardConfig) (ops : List DetOp) :
    ∀ (st : DetectorState) (c : Int), DetSorted st → DetBounded st c →
      (c :: ops.map opTime).Chain' (· ≤ ·) → DetSorted (runOps cfg st ops) := by
  induction ops with
  | nil => exact fun st c hs _ _ => hs
  | cons op rest ih =>
    intro st c hs hb hch
    rw [List.map_cons, List.chain'_cons] at hch
    obtain ⟨hle, hch'⟩ := hch
    have hstep : DetSorted (applyOp cfg st op) ∧ DetBounded (applyOp cfg st op) (opTime op) := by
      cases op with
      | opScore s => exact inv_score cfg st s c hs hb hle
      | opJoin uid t => exact inv_join cfg st uid t c hs hb hle
      | opDecide uid t => exact inv_decide cfg st uid t c hs hb hle
    exact ih (applyOp cfg st op) (opTime op) hstep.1 hstep.2 hch'

theorem emptyDetector_sorted : DetSorted emptyDetector := by
  refine ⟨fun _ => ?_, fun _ => ?_, fun _ => ?_, fun _ => ?_, ?_, ?_⟩ <;>
    simp [emptyDetector]

theorem emptyDetector_bounded (c : Int) : DetBounded emptyDetector c := by
  refine ⟨fun _ t ht => ?_, fun _ e he => ?_, fun _ e he => ?_, fun _ t ht => ?_,
    fun e he => ?_, fun t ht => ?_⟩ <;> simp [emptyDetector] at *

/-- C8 as stated is false: the invariant quantifies over *every* sequence of
calls, but the detector trusts the caller's timestamps — two `score` calls
whose `created_at` values decrease leave the user's message history out of
order, because pruning only pops entries *older* than the cutoff from the
front and the new timestamp is appended unconditionally. -/
theorem claim_C8_counterexample :
    (runOps defaultConfig emptyDetector
        [.opScore { user_id := 1, content := "", mention_count := 0, created_at := 100
                    account_created_at := 0, joined_at := none },
         .opScore { user_id := 1, content := "", mention_count := 0, created_at := 0
                    account_created_at := 0, joined_at := none }]).user_messages 1 =
      [100, 0] ∧
    ¬ ((runOps defaultConfig emptyDetector
        [.opScore { user_id := 1, content := "", mention_count := 0, created_at := 100
                    account_created_at := 0, joined_at := none },
         .opScore { user_id := 1, content := "", mention_count := 0, created_at := 0
                    account_created_at := 0, joined_at := none }]).user_messages 1).Sorted
      (· ≤ ·) := by
  have h : (runOps defaultConfig emptyDetector
      [.opScore { user_id := 1, content := "", mention_count := 0, created_at := 100
                  account_created_at := 0, joined_at := none },
       .opScore { user_id := 1, content := "", mention_count := 0, created_at := 0
                  account_created_at := 0, joined_at := none }]).user_messages 1 =
      [100, 0] := by decide
  refine ⟨h, ?_⟩
  rw [h, List.sorted_cons]
  rintro ⟨hall, _⟩
  have := hall 0 (List.mem_singleton.mpr rfl)
  omega

/-- C8 (amended): all six history sequences of the detector are in
non-decreasing time order after every sequence of `score`, `register_join`
and `decide_enforcement` calls *whose time arguments are non-decreasing* —
the order in which the runtime, driven by a monotone clock, issues them.
(For clock-reversing call sequences the invariant fails, see the
counterexample.) -/
theorem claim_C8 (cfg : SpamGuardConfig) (ops : List DetOp)
    (h : (ops.map opTime).Chain' (· ≤ ·)) :
    DetSorted (runOps cfg emptyDetector ops) := by
  cases ops with
  | nil => exact emptyDetector_sorted
  | cons op rest =>
    apply runOps_inv cfg (op :: rest) emptyDetector (opTime op) emptyDetector_sorted
      (emptyDetector_bounded _)
    rw [List.map_cons, List.chain'_cons]
    rw [List.map_cons] at h
    exact ⟨le_refl _, h⟩

/-- Witness for C8's amended theorem on a concrete monotone call sequence. -/
theorem claim_C8_witness :
    (([DetOp.opJoin 7 0,
        .opScore { user_id := 1, content := "", mention_count := 0, created_at := 3
                   account_created_at := 0, joined_at := none },
        .opDecide 1 5].map opTime).Chain' (· ≤ ·)) ∧
      DetSorted (runOps defaultConfig emptyDetector
        [DetOp.opJoin 7 0,
          .opScore { user_id := 1, content := "", mention_count := 0, created_at := 3
                     account_created_at := 0, joined_at := none },
          .opDecide 1 5]) :=
  ⟨by simp [opTime, List.chain'_cons], claim_C8 defaultConfig _ (by simp [opTime, List.chain'_cons])⟩

theorem lowerTable_good :
    ∀ p ∈ lowerTable, isSpaceChar p.1 = false ∧ isSpaceChar p.2 = false ∧
      pyToLower p.2 = p.2 := by decide

theorem isSpace_pyToLower (c : Char) : isSpaceChar (pyToLower c) = isSpaceChar c := by
  unfold pyToLower
  cases h : lowerTable.find? (fun p => p.1 = c) with
  | none => rfl
  | some p =>
    have hmem := List.mem_of_find?_eq_some h
    have hp : p.1 = c := by simpa using List.find?_some h
    obtain ⟨h1, h2, _⟩ := lowerTable_good p hmem
    rw [h2, ← hp, h1]

theorem pyToLower_idem (c : Char) : pyToLower (pyToLower c) = pyToLower c := by
  cases h : lowerTable.find? (fun p => p.1 = c) with
  | none => simp [pyToLower, h]
  | some p =>
    have hmem := List.mem_of_find?_eq_some h
    have hlow : pyToLower c = p.2 := by simp [pyToLower, h]
    rw [hlow, (lowerTable_good p hmem).2.2]

theorem collapseAux_cons_sp_true {c : Char} (hc : isSpaceChar c = true) (t : List Char) :
    collapseAux true (c :: t) = collapseAux true t := by
  simp [collapseAux, hc]

theorem collapseAux_cons_sp_false {c : Char} (hc : isSpaceChar c = true) (t : List Char) :
    collapseAux false (c :: t) = ' ' :: collapseAux true t := by
  simp [collapseAux, hc]

theorem collapseAux_cons_nsp {c : Char} (hc : isSpaceChar c = false) (b : Bool)
    (t : List Char) : collapseAux b (c :: t) = c :: collapseAux false t := by
  cases b <;> simp [collapseAux, hc]

theorem mem_collapseAux {c : Char} : ∀ {b : Bool} {l : List Char},
    c ∈ collapseAux b l → c = ' ' ∨ c ∈ l := by
  intro b l
  induction l generalizing b with
  | nil => intro h; simp [collapseAux] at h
  | cons d rest ih =>
    intro h
    by_cases hd : isSpaceChar d
    · rw [collapseAux, if_pos hd] at h
      cases b with
      | true =>
        rcases ih h with h' | h'
        · exact Or.inl h'
        · exact Or.inr (List.mem_cons_of_mem _ h')
      | false =>
        rcases List.mem_cons.mp h with h' | h'
        · exact Or.inl h'
        · rcases ih h' with h'' | h''
          · exact Or.inl h''
          · exact Or.inr (List.mem_cons_of_mem _ h'')
    · rw [collapseAux, if_neg hd] at h
      rcases List.mem_cons.mp h with h' | h'
      · exact Or.inr (h' ▸ List.mem_cons_self _ _)
      · rcases ih h' with h'' | h''
        · exact Or.inl h''
        · exact Or.inr (List.mem_cons_of_mem _ h'')

theorem collapse_fix (l : List Char) :
    (∀ b, collapseAux b (collapseAux true l) = collapseAux true l) ∧
      collapseAux false (collapseAux false l) = collapseAux false l := by
  induction l with
  | nil => exact ⟨fun b => rfl, rfl⟩
  | cons c rest ih =>
    by_cases hc : isSpaceChar c
    · constructor
      · intro b
        rw [collapseAux_cons_sp_true hc]
        exact ih.1 b
      · rw [collapseAux_cons_sp_false hc, collapseAux_cons_sp_false (by decide), ih.1 true]
    · have hc' : isSpaceChar c = false := by simpa using hc
      constructor
      · intro b
        rw [collapseAux_cons_nsp hc' true, collapseAux_cons_nsp hc' b, ih.2]
      · rw [collapseAux_cons_nsp hc' false, collapseAux_cons_nsp hc' false, ih.2]

theorem getLast?_cons_ne {a : Char} {X : List Char} (h : X ≠ []) :
    (a :: X).getLast? = X.getLast? := by
  cases X with
  | nil => exact absurd rfl h
  | cons b t => exact List.getLast?_cons_cons

theorem collapse_last (l : List Char)
    (hlast : ∀ x, l.getLast? = some x → isSpaceChar x = false) :
    ∀ b, (l ≠ [] → collapseAux b l ≠ []) ∧
      (∀ x, (collapseAux b l).getLast? = some x → isSpaceChar x = false) := by
  induction l with
  | nil =>
    intro b
    exact ⟨fun h => absurd rfl h, fun x hx => by simp [collapseAux] at hx⟩
  | cons c rest ih =>
    intro b
    by_cases hc : isSpaceChar c
    · have hrest : rest ≠ [] := by
        intro h
        subst h
        have := hlast c (by simp)
        rw [hc] at this
        exact absurd this (by simp)
      have hlast' : ∀ x, rest.getLast? = some x → isSpaceChar x = false := by
        intro x hx
        apply hlast
        rw [getLast?_cons_ne hrest]
        exact hx
      have ihr := ih hlast'
      cases b with
      | true =>
        rw [collapseAux_cons_sp_true hc]
        exact ⟨fun _ => (ihr true).1 hrest, (ihr true).2⟩
      | false =>
        rw [collapseAux_cons_sp_false hc]
        refine ⟨fun _ => by simp, fun x hx => ?_⟩
        rw [getLast?_cons_ne ((ihr true).1 hrest)] at hx
        exact (ihr true).2 x hx
    · rw [collapseAux_cons_nsp (by simpa using hc) b]
      refine ⟨fun _ => by simp, fun x hx => ?_⟩
      cases hrest : rest with
      | nil =>
        subst hrest
        have hx' : x = c := by
          have : collapseAux false ([] : List Char) = [] := rfl
          rw [this] at hx
          simpa using hx.symm
        subst hx'
        simpa using hc
      | cons r rest' =>
        have hrest' : rest ≠ [] := by rw [hrest]; simp
        have hlast' : ∀ y, rest.getLast? = some y → isSpaceChar y = false := by
          intro y hy
          apply hlast
          rw [getLast?_cons_ne hrest']
          exact hy
        have ihr := ih hlast'
        rw [getLast?_cons_ne ((ihr false).1 hrest')] at hx
        exact (ihr false).2 x hx

theorem getLast?_dropWhile_ne_nil {p : Char → Bool} {l : List Char}
    (h : l.dropWhile p ≠ []) : (l.dropWhile p).getLast? = l.getLast? := by
  induction l with
  | nil => rfl
  | cons c t ih =>
    by_cases hc : p c
    · rw [List.dropWhile_cons, if_pos hc] at h ⊢
      have ht : t ≠ [] := by
        intro h0
        subst h0
        exact h rfl
      rw [ih h, getLast?_cons_ne ht]
    · rw [List.dropWhile_cons, if_neg hc]

theorem head?_dropWhile_false {p : Char → Bool} {l : List Char} {x : Char}
    (h : (l.dropWhile p).head? = some x) : p x = false := by
  have hd := List.head?_dropWhile_not p l
  rw [h] at hd
  exact hd

theorem dropWhile_eq_self_of_head {p : Char → Bool} {l : List Char}
    (h : ∀ x, l.head? = some x → p x = false) : l.dropWhile p = l := by
  cases l with
  | nil => rfl
  | cons c t =>
    rw [List.dropWhile_cons, h c rfl]
    simp

theorem head?_pyStripL (l : List Char) :
    ∀ x, (pyStripL l).head? = some x → isSpaceChar x = false := by
  intro x hx
  unfold pyStripL at hx
  rw [List.head?_reverse] at hx
  have hne : (l.dropWhile isSpaceChar).reverse.dropWhile isSpaceChar ≠ [] := by
    intro h0
    rw [h0] at hx
    simp at hx
  rw [getLast?_dropWhile_ne_nil hne, List.getLast?_reverse] at hx
  exact head?_dropWhile_false hx

theorem dropWhile_pyStripL (l : List Char) :
    (pyStripL l).dropWhile isSpaceChar = pyStripL l :=
  dropWhile_eq_self_of_head (head?_pyStripL l)

theorem getLast?_pyStripL (l : List Char) :
    ∀ x, (pyStripL l).getLast? = some x → isSpaceChar x = false := by
  intro x hx
  unfold pyStripL at hx
  rw [List.getLast?_reverse] at hx
  exact head?_dropWhile_false hx

theorem pyStripL_fix {L : List Char} (h1 : L.dropWhile isSpaceChar = L)
    (h2 : ∀ x, L.getLast? = some x → isSpaceChar x = false) : pyStripL L = L := by
  unfold pyStripL
  rw [h1]
  have : L.reverse.dropWhile isSpaceChar = L.reverse := by
    cases hL : L.reverse with
    | nil => simp
    | cons x t =>
      have hx : L.getLast? = some x := by
        have : L.reverse.head? = some x := by rw [hL]; rfl
        rwa [List.head?_reverse] at this
      rw [List.dropWhile_cons, h2 x hx]
      simp
  rw [this, List.reverse_reverse]

theorem dropWhile_sp_map_low (S : List Char) :
    (S.map pyToLower).dropWhile isSpaceChar =
      (S.dropWhile isSpaceChar).map pyToLower := by
  induction S with
  | nil => rfl
  | cons c t ih =>
    rw [List.map_cons, List.dropWhile_cons, List.dropWhile_cons, isSpace_pyToLower]
    by_cases hc : isSpaceChar c
    · rw [if_pos hc, if_pos hc, ih]
    · rw [if_neg hc, if_neg hc, List.map_cons]

theorem getLast?_map_low (S : List Char) :
    (S.map pyToLower).getLast? = S.getLast?.map pyToLower := by
  induction S with
  | nil => rfl
  | cons c t ih =>
    cases t with
    | nil => rfl
    | cons d t' =>
      rw [List.map_cons, getLast?_cons_ne (by simp), getLast?_cons_ne (by simp), ih]

theorem map_pyToLower_fix {L : List Char} (h : ∀ c ∈ L, pyToLower c = c) :
    L.map pyToLower = L := by
  induction L with
  | nil => rfl
  | cons c t ih =>
    rw [List.map_cons, h c (List.mem_cons_self _ _),
      ih (fun x hx => h x (List.mem_cons_of_mem _ hx))]

/-- C10: content normalization (trim, lower-case, collapse every whitespace
run to one space) is idempotent, so an already-normalized message compares
equal to its own stored entry in the duplicate-detection history. -/
theorem claim_C10 (content : String) : normalize (normalize content) = normalize content := by
  unfold normalize collapseWs
  show String.mk (collapseAux false ((pyStripL (String.mk _).toList).map pyToLower)) = _
  have htoList : ∀ l : List Char, (String.mk l).toList = l := fun l => rfl
  rw [htoList]
  have hIdrop : (((pyStripL content.toList).map pyToLower).dropWhile isSpaceChar) =
      (pyStripL content.toList).map pyToLower := by
    rw [dropWhile_sp_map_low, dropWhile_pyStripL]
  have hIlast : ∀ x, ((pyStripL content.toList).map pyToLower).getLast? = some x →
      isSpaceChar x = false := by
    intro x hx
    rw [getLast?_map_low] at hx
    cases hS : (pyStripL content.toList).getLast? with
    | none => rw [hS] at hx; simp at hx
    | some y =>
      rw [hS] at hx
      simp only [Option.map_some', Option.some.injEq] at hx
      rw [← hx, isSpace_pyToLower]
      exact getLast?_pyStripL content.toList y hS
  have hLdrop : (collapseAux false ((pyStripL content.toList).map pyToLower)).dropWhile
      isSpaceChar = collapseAux false ((pyStripL content.toList).map pyToLower) := by
    cases hI : (pyStripL content.toList).map pyToLower with
    | nil => rfl
    | cons c t =>
      have hc : isSpaceChar c = false := by
        have hstep : ((pyStripL content.toList).map pyToLower).dropWhile isSpaceChar =
            c :: t := by rw [hIdrop, hI]
        exact head?_dropWhile_false (by rw [hstep]; rfl)
      rw [collapseAux_cons_nsp hc false, List.dropWhile_cons, hc]
      simp
  have hLlast : ∀ x, (collapseAux false ((pyStripL content.toList).map pyToLower)).getLast? =
      some x → isSpaceChar x = false :=
    (collapse_last _ hIlast false).2
  rw [pyStripL_fix hLdrop hLlast]
  have hmapfix : (collapseAux false ((pyStripL content.toList).map pyToLower)).map pyToLower =
      collapseAux false ((pyStripL content.toList).map pyToLower) := by
    apply map_pyToLower_fix
    intro c hc
    rcases mem_collapseAux hc with h | h
    · rw [h]; decide
    · obtain ⟨y, _, rfl⟩ := List.mem_map.mp h
      exact pyToLower_idem y
  rw [hmapfix]
  rw [(collapse_fix _).2]

end SpamGuard
